import Mathlib

set_option linter.unusedVariables false

/-!
Shallow embedding of the closed-form Lambertian solver (`code/closed_form.py`)
and of the location parametrizations (`code/parametrizations/locations.py`)
from the handheld SVBRDF / geometry estimation repository.

Modelling conventions:
* machine floating-point arithmetic is modelled by exact rational arithmetic
  (`ℚ`) for the linear-algebra pipeline of the solver, and by exact real
  arithmetic (`ℝ`) for the geometric pipeline (which divides by Euclidean
  norms, i.e. square roots);
* a fatal Python exception is modelled by an `Except`/`Option` failure;
* torch tensors indexed by points/views/channels are modelled by functions
  out of `Fin`, images by functions out of `ℤ × ℤ` (zero outside the grid,
  matching the zero padding used by the code).
-/

namespace HandheldSVBRDF

/-- Python identifiers relevant to the name-resolution model of
`parametrizations/locations.py` (used for `PlaneParametrization.initialize`,
whose body references the unbound names `H` and `W`). -/
inductive PyName where
  | selfVar | depthVar | maskVar | invKVar | invRtVar | worldPointsVar
  | abcClass | abstractmethodFn | torchModule | parametrizationClass
  | depthMapToLocationsFn | errorFn | innerProductFn | crossProductFn
  | normalizeFn | normFn | lruCacheFn
  | locationParametrizationClass | depthMapParametrizationClass
  | planeParametrizationClass | locationParametrizationFactoryFn
  | npModule | varH | varW
  deriving DecidableEq, Repr

/-- Errors raised by the modelled Python code: the fatal configuration error
reported by `utils.logging.error`, the shape mismatch of `create_vector`, and
a Python `NameError` for an unbound identifier. -/
inductive PyError where
  | configurationError : PyError
  | shapeMismatch : PyError
  | nameNotFound : PyName → PyError
  deriving DecidableEq, Repr

/-! ### Generic list helpers for the mask scatter/gather operations -/

/-- Value stored at cell `q` after scattering the measurement list `xs` into
the cell list `cs` (first match wins; default `d` where no cell matches).
This models `image[mask] = measurements` followed by reading one pixel. -/
def scatterGet {α : Type} [DecidableEq β] : List β → List α → β → α → α
  | [], _, _, d => d
  | _ :: _, [], _, d => d
  | c :: cs, x :: xs, q, d => if q = c then x else scatterGet cs xs q d

theorem scatterGet_map {α β : Type} [DecidableEq β] (f : β → α) (d : α) :
    ∀ (l : List β) (c : β), l.Nodup → c ∈ l →
      scatterGet l (l.map f) c d = f c := by
  intro l
  induction l with
  | nil => intro c _ hc; cases hc
  | cons a l ih =>
    intro c hnd hc
    simp only [List.map_cons, scatterGet]
    rcases List.mem_cons.mp hc with h | h
    · simp [h]
    · have hne : c ≠ a := by
        intro hca
        exact (List.nodup_cons.mp hnd).1 (hca ▸ h)
      simp only [if_neg hne]
      exact ih c (List.nodup_cons.mp hnd).2 h

theorem scatterGet_not_mem {α β : Type} [DecidableEq β] (d : α) :
    ∀ (l : List β) (v : List α) (c : β), c ∉ l → scatterGet l v c d = d := by
  intro l
  induction l with
  | nil => intro v c _; cases v <;> rfl
  | cons a l ih =>
    intro v c hc
    cases v with
    | nil => rfl
    | cons x xs =>
      have hne : c ≠ a := fun h => hc (h ▸ List.mem_cons_self a l)
      simp only [scatterGet, if_neg hne]
      exact ih xs c (fun h => hc (List.mem_cons_of_mem a h))

theorem map_scatterGet {α β : Type} [DecidableEq β] (d : α) :
    ∀ (l : List β) (v : List α), l.Nodup → v.length = l.length →
      l.map (fun c => scatterGet l v c d) = v := by
  intro l
  induction l with
  | nil =>
    intro v _ hlen
    cases v with
    | nil => rfl
    | cons x xs => simp at hlen
  | cons a l ih =>
    intro v hnd hlen
    cases v with
    | nil => simp at hlen
    | cons x xs =>
      have hnotmem : a ∉ l := (List.nodup_cons.mp hnd).1
      have hnd' : l.Nodup := (List.nodup_cons.mp hnd).2
      have hlen' : xs.length = l.length := by
        simpa using hlen
      simp only [List.map_cons, scatterGet, if_pos rfl, List.cons.injEq]
      refine ⟨rfl, ?_⟩
      have hcongr : l.map (fun c => if c = a then x else scatterGet l xs c d)
          = l.map (fun c => scatterGet l xs c d) := by
        apply List.map_congr_left
        intro c hc
        have hne : c ≠ a := fun hca => hnotmem (hca ▸ hc)
        rw [if_neg hne]
      rw [hcongr]
      exact ih xs hnd' hlen'

/-! ### Vector utilities (`utils/vectors.py`)

Modelled from the spec: `utils/vectors.py` is not part of the provided
sources; the spec describes it as the leaf utilities `normalize`,
`inner_product`, `cross_product` and `norm` on 3-vectors.  `normalize` maps
the zero vector to the zero vector (the repair logic of
`implied_normal_image` detects invalid pixels by a zero norm after
normalization, which fixes this convention). -/

/-- A 3-vector of reals (componentwise algebraic structure via the `Pi`
instances). -/
abbrev Vec3 : Type := Fin 3 → ℝ

/-- Modelled from the spec: `inner_product` from `utils/vectors.py`. -/
noncomputable def inner_product (u v : Vec3) : ℝ :=
  ∑ i : Fin 3, u i * v i

/-- Modelled from the spec: `cross_product` from `utils/vectors.py`. -/
noncomputable def cross_product (u v : Vec3) : Vec3 :=
  ![u 1 * v 2 - u 2 * v 1, u 2 * v 0 - u 0 * v 2, u 0 * v 1 - u 1 * v 0]

/-- Modelled from the spec: `norm` from `utils/vectors.py`, the Euclidean
norm of a 3-vector. -/
noncomputable def vnorm (v : Vec3) : ℝ :=
  Real.sqrt (inner_product v v)

/-- Modelled from the spec: `normalize` from `utils/vectors.py`; the zero
vector is kept at zero. -/
noncomputable def normalize (v : Vec3) : Vec3 :=
  if vnorm v = 0 then 0 else (vnorm v)⁻¹ • v

theorem inner_product_self_nonneg (v : Vec3) : 0 ≤ inner_product v v := by
  refine Finset.sum_nonneg ?_
  intro i _
  exact mul_self_nonneg (v i)

theorem vnorm_eq_zero_iff (v : Vec3) : vnorm v = 0 ↔ v = 0 := by
  constructor
  · intro h
    have hinner : inner_product v v = 0 := by
      have := Real.sqrt_eq_zero (inner_product_self_nonneg v) |>.mp h
      exact this
    funext i
    have hz : ∀ j ∈ Finset.univ, 0 ≤ v j * v j := fun j _ => mul_self_nonneg _
    have := (Finset.sum_eq_zero_iff_of_nonneg hz).mp hinner i (Finset.mem_univ i)
    have : v i * v i = 0 := this
    have := mul_self_eq_zero.mp this
    simpa using this
  · intro h
    subst h
    simp [vnorm, inner_product]

theorem vnorm_smul (c : ℝ) (v : Vec3) : vnorm (c • v) = |c| * vnorm v := by
  unfold vnorm inner_product
  have h : ∑ i : Fin 3, (c • v) i * (c • v) i = c ^ 2 * ∑ i : Fin 3, v i * v i := by
    rw [Finset.mul_sum]
    refine Finset.sum_congr rfl ?_
    intro i _
    show c * v i * (c * v i) = c ^ 2 * (v i * v i)
    ring
  rw [h, Real.sqrt_mul (sq_nonneg c), Real.sqrt_sq_eq_abs]

theorem vnorm_normalize (v : Vec3) (h : vnorm v ≠ 0) : vnorm (normalize v) = 1 := by
  unfold normalize
  rw [if_neg h, vnorm_smul]
  have hpos : 0 < vnorm v := by
    rcases lt_or_eq_of_le (Real.sqrt_nonneg (inner_product v v)) with hlt | heq
    · exact hlt
    · exact absurd heq.symm h
  rw [abs_of_pos (inv_pos.mpr hpos)]
  field_simp

theorem normalize_unit_or_zero (v : Vec3) :
    vnorm (normalize v) = 1 ∨ normalize v = 0 := by
  by_cases h : vnorm v = 0
  · right
    unfold normalize
    rw [if_pos h]
  · left
    exact vnorm_normalize v h

theorem vnorm_zero : vnorm (0 : Vec3) = 0 :=
  (vnorm_eq_zero_iff 0).mpr rfl

theorem normalize_zero : normalize (0 : Vec3) = 0 := by
  rw [normalize, if_pos vnorm_zero]

theorem normalize_unit_vec (v : Vec3) (h : inner_product v v = 1) :
    normalize v = v := by
  have hn : vnorm v = 1 := by rw [vnorm, h, Real.sqrt_one]
  rw [normalize, hn, if_neg one_ne_zero, inv_one, one_smul]

theorem cross_self (v : Vec3) : cross_product v v = 0 := by
  funext r
  fin_cases r <;> simp [cross_product] <;> ring

theorem cross_zero_left (v : Vec3) : cross_product 0 v = 0 := by
  funext r
  fin_cases r <;> simp [cross_product]

theorem cross_zero_right (v : Vec3) : cross_product v 0 = 0 := by
  funext r
  fin_cases r <;> simp [cross_product]

theorem inner_smul_left (c : ℝ) (u w : Vec3) :
    inner_product (c • u) w = c * inner_product u w := by
  rw [inner_product, inner_product, Finset.mul_sum]
  refine Finset.sum_congr rfl ?_
  intro i _
  show c * u i * w i = c * (u i * w i)
  ring

theorem inner_sub_swap (u a b : Vec3) :
    inner_product u (a - b) = -inner_product u (b - a) := by
  rw [inner_product, inner_product, ← Finset.sum_neg_distrib]
  refine Finset.sum_congr rfl ?_
  intro i _
  show u i * (a i - b i) = -(u i * (b i - a i))
  ring

/-! ### Closed-form Lambertian solver (`code/closed_form.py`)

The solver of `closed_form_lambertian_solution` works on the data gathered
from the training batches: per point `p` and per view `v` a light intensity
(3 channels), a light direction (3 components), a shadow flag, an occlusion
flag from the observation extractor, and a raw observation (3 channels).
Machine floats are modelled by `ℚ`; the batched `torch.(...).inverse()`
calls, which raise on singular matrices, are modelled by an `Option`-valued
inverse. -/

/-- Input data of the closed-form solver, after the training batches have
been concatenated along the view axis (`N` points, `C` views).
`sentinel` is the reserved value `OBSERVATION_OUT_OF_BOUNDS` from
`utils/sentinels.py` (modelled from the spec: that file is not among the
provided sources, so the sentinel is kept as an abstract rational). -/
structure CFInput where
  N : ℕ
  C : ℕ
  lightIntensity : Fin N → Fin C → Fin 3 → ℚ
  lightDirection : Fin N → Fin C → Fin 3 → ℚ
  shadow : Fin N → Fin C → Bool
  observationRaw : Fin N → Fin C → Fin 3 → ℚ
  occlusionRaw : Fin N → Fin C → Bool
  sentinel : ℚ

namespace CF

variable (inp : CFInput)

/-- Line 73: `occlusions = (occlusions + (observations[...,1] == OBSERVATION_OUT_OF_BOUNDS)) > 0`:
the extractor occlusion flag, or channel 1 of the raw observation hitting the
out-of-bounds sentinel. -/
def occlusion (p : Fin inp.N) (v : Fin inp.C) : Bool :=
  inp.occlusionRaw p v || decide (inp.observationRaw p v 1 = inp.sentinel)

/-- Line 87: `shadowing_mask = (shadows == 0).float()`. -/
def shadowingMask (p : Fin inp.N) (v : Fin inp.C) : ℚ :=
  if inp.shadow p v then 0 else 1

/-- Line 88: `occlusion_mask = (occlusions == 0).float()`. -/
def occlusionMask (p : Fin inp.N) (v : Fin inp.C) : ℚ :=
  if occlusion inp p v then 0 else 1

/-- Line 89: `valid_mask = shadowing_mask * occlusion_mask`. -/
def validMask (p : Fin inp.N) (v : Fin inp.C) : ℚ :=
  shadowingMask inp p v * occlusionMask inp p v

/-- Per-point number of valid views, `valid_mask.sum(dim=1)` (line 90). -/
def validCount (p : Fin inp.N) : ℚ :=
  ∑ v : Fin inp.C, validMask inp p v

/-- Line 90: `invalids = (valid_mask.sum(dim=1) <= 2).float()`. -/
def invalids (p : Fin inp.N) : ℚ :=
  if validCount inp p ≤ 2 then 1 else 0

/-- Lines 83-85: `incident_light = light_intensities[:,:,:,None] * light_directions[:,:,None,:]`,
indexed as points × views × color channels × direction components. -/
def incidentLight (p : Fin inp.N) (v : Fin inp.C) (c : Fin 3) (d : Fin 3) : ℚ :=
  inp.lightIntensity p v c * inp.lightDirection p v d

/-- Line 95: `gray_light_intensities = incident_light.mean(dim=-2) * valid_mask`. -/
def grayLight (p : Fin inp.N) (v : Fin inp.C) (d : Fin 3) : ℚ :=
  ((∑ c : Fin 3, incidentLight inp p v c d) / 3) * validMask inp p v

/-- Line 96: `gray_observations = observations.mean(dim=-1, keepdim=True) * valid_mask`. -/
def grayObs (p : Fin inp.N) (v : Fin inp.C) : ℚ :=
  ((∑ c : Fin 3, inp.observationRaw p v c) / 3) * validMask inp p v

/-- Line 101: `subset_size = min(observations.shape[1], 6)`. -/
def subsetSize : ℕ := min inp.C 6

/-- Line 102: `threshold = 1e4`. -/
def threshold : ℚ := 10000

/-- The scale `1e8` of the diagonal regularizer `eye` (line 91). -/
def regScale : ℚ := 100000000

/-- An `Option`-valued matrix inverse over `ℚ`: `torch.inverse` raises on a
singular matrix, which is modelled by `none`. -/
def matInvQ {n : ℕ} (M : Matrix (Fin n) (Fin n) ℚ) :
    Option (Matrix (Fin n) (Fin n) ℚ) :=
  if M.det = 0 then none else some (M.det⁻¹ • M.adjugate)

theorem matInvQ_isSome_iff {n : ℕ} (M : Matrix (Fin n) (Fin n) ℚ) :
    (matInvQ M).isSome = true ↔ M.det ≠ 0 := by
  unfold matInvQ
  by_cases h : M.det = 0 <;> simp [h]

/-- The design matrix of one RANSAC subset for point `p`: the rows of
`gray_light_intensities` selected by the subset `S` (line 114). -/
def subsetMatrix {m : ℕ} (p : Fin inp.N) (S : Fin m → Fin inp.C) :
    Matrix (Fin m) (Fin 3) ℚ :=
  Matrix.of fun k d => grayLight inp p (S k) d

/-- The observation column of one RANSAC subset for point `p` (line 115). -/
def subsetRhs {m : ℕ} (p : Fin inp.N) (S : Fin m → Fin inp.C) (k : Fin m) : ℚ :=
  grayObs inp p (S k)

/-- Number of valid views inside the subset, `valid_subset.sum(dim=1)`
(lines 116-119). -/
def subsetValidCount {m : ℕ} (p : Fin inp.N) (S : Fin m → Fin inp.C) : ℚ :=
  ∑ k : Fin m, validMask inp p (S k)

/-- Line 119: `invalids_subset = (valid_subset.sum(dim=1) <= 2).float()`. -/
def subsetInvalids {m : ℕ} (p : Fin inp.N) (S : Fin m → Fin inp.C) : ℚ :=
  if subsetValidCount inp p S ≤ 2 then 1 else 0

/-- The regularized normal-equations matrix of one subset solve for point
`p`: `intensities_subset^T @ intensities_subset + eye * invalids_subset`
(line 120). -/
def subsetNormalMatrix {m : ℕ} (p : Fin inp.N) (S : Fin m → Fin inp.C) :
    Matrix (Fin 3) (Fin 3) ℚ :=
  (subsetMatrix inp p S).transpose * subsetMatrix inp p S
    + (regScale * subsetInvalids inp p S) • (1 : Matrix (Fin 3) (Fin 3) ℚ)

/-- Lines 120-121: the per-point solution of the regularized least-squares
system of one subset; `none` models the exception raised by
`torch.inverse` on a singular matrix. -/
def solveSubsetPoint {m : ℕ} (p : Fin inp.N) (S : Fin m → Fin inp.C) :
    Option (Fin 3 → ℚ) :=
  (matInvQ (subsetNormalMatrix inp p S)).map fun Mi =>
    (Mi * (subsetMatrix inp p S).transpose).mulVec (subsetRhs inp p S)

/-- Line 123: the residual of a candidate solution at view `v`, computed over
the full view set. -/
def residualAt (p : Fin inp.N) (sol : Fin 3 → ℚ) (v : Fin inp.C) : ℚ :=
  (∑ d : Fin 3, grayLight inp p v d * sol d) - grayObs inp p v

/-- Line 124: `inliers = ((residuals.abs() < threshold) * valid_mask).float()`. -/
def inlierFlag (p : Fin inp.N) (sol : Fin 3 → ℚ) (v : Fin inp.C) : ℚ :=
  (if |residualAt inp p sol v| < threshold then 1 else 0) * validMask inp p v

/-- Line 125: `inlier_counts = inliers.sum(dim=1)`. -/
def inlierCount (p : Fin inp.N) (sol : Fin 3 → ℚ) : ℚ :=
  ∑ v : Fin inp.C, inlierFlag inp p sol v

end CF

/-- The per-point RANSAC state: the best inlier count and the best inlier
mask over views (lines 108-109). -/
structure RState (inp : CFInput) where
  bestCount : Fin inp.N → ℚ
  bestInliers : Fin inp.N → Fin inp.C → ℚ

namespace CF

variable (inp : CFInput)

/-- Lines 108-109: `best_inlier_counts = zeros - 1`, `best_inliers = zeros`. -/
def initialRState : RState inp :=
  { bestCount := fun _ => -1
    bestInliers := fun _ _ => 0 }

/-- One iteration of the RANSAC loop (lines 111-129) given the drawn subset
`S`.  The whole batched solve fails (models the `torch.inverse` exception)
if any point's regularized system is singular. -/
def ransacStep {m : ℕ} (st : RState inp) (S : Fin m → Fin inp.C) :
    Option (RState inp) :=
  if h : ∀ p, (solveSubsetPoint inp p S).isSome then
    let sol : ∀ q : Fin inp.N, Fin 3 → ℚ := fun q => (solveSubsetPoint inp q S).get (h q)
    let better : Fin inp.N → ℚ := fun p =>
      if inlierCount inp p (sol p) > st.bestCount p then 1 else 0
    some
      { bestCount := fun p =>
          st.bestCount p * (1 - better p) + inlierCount inp p (sol p) * better p
        bestInliers := fun p v =>
          st.bestInliers p v * (1 - better p) + inlierFlag inp p (sol p) v * better p }
  else none

/-- The RANSAC loop over the list of drawn subsets. -/
def ransacLoop {m : ℕ} (draws : List (Fin m → Fin inp.C)) (st : RState inp) :
    Option (RState inp) :=
  draws.foldl (fun acc S => acc.bind fun s => ransacStep inp s S) (some st)

/-! #### Final refit on the best inlier set (lines 134-139) -/

/-- Line 135: `inlier_intensities = gray_light_intensities * best_inliers`,
for point `p` with best-inlier row `B`. -/
def inlierMatrix (p : Fin inp.N) (B : Fin inp.C → ℚ) :
    Matrix (Fin inp.C) (Fin 3) ℚ :=
  Matrix.of fun v d => grayLight inp p v d * B v

/-- Line 136: `inlier_observations = gray_observations * best_inliers`. -/
def inlierRhs (p : Fin inp.N) (B : Fin inp.C → ℚ) (v : Fin inp.C) : ℚ :=
  grayObs inp p v * B v

/-- Line 137: `(valid_mask * best_inliers).sum(dim=1)`. -/
def inlierValidCount (p : Fin inp.N) (B : Fin inp.C → ℚ) : ℚ :=
  ∑ v : Fin inp.C, validMask inp p v * B v

/-- Line 137: `inlier_invalids = ((valid_mask * best_inliers).sum(dim=1) <= 2).float()`. -/
def inlierInvalids (p : Fin inp.N) (B : Fin inp.C → ℚ) : ℚ :=
  if inlierValidCount inp p B ≤ 2 then 1 else 0

/-- Line 138: the regularized normal-equations matrix of the refit. -/
def inlierNormalMatrix (p : Fin inp.N) (B : Fin inp.C → ℚ) :
    Matrix (Fin 3) (Fin 3) ℚ :=
  (inlierMatrix inp p B).transpose * inlierMatrix inp p B
    + (regScale * inlierInvalids inp p B) • (1 : Matrix (Fin 3) (Fin 3) ℚ)

/-- Lines 138-139 (before the normalization): the raw per-point solution of
the refit on the winning inlier set. -/
def refitPoint (p : Fin inp.N) (B : Fin inp.C → ℚ) : Option (Fin 3 → ℚ) :=
  (matInvQ (inlierNormalMatrix inp p B)).map fun Mi =>
    (Mi * (inlierMatrix inp p B).transpose).mulVec (inlierRhs inp p B)

/-- Line 139: `inlier_normals = normalize(...)`, the unit-normalized final
normal of a raw refit solution, in exact real arithmetic. -/
noncomputable def normalOfRaw (raw : Fin 3 → ℚ) : Vec3 :=
  normalize fun d => (raw d : ℝ)

/-! #### Per-channel albedo refit (lines 141-153) -/

/-- Line 143: `inlier_mask = best_inliers * valid_mask`. -/
def inlierMask (p : Fin inp.N) (B : Fin inp.C → ℚ) (v : Fin inp.C) : ℚ :=
  B v * validMask inp p v

/-- Line 145: `c_light_intensities = inner_product(inlier_normals, incident_light[:,:,c]) * inlier_mask`,
the masked per-view shading of channel `c` for point `p` (with raw refit
solution `raw`). -/
noncomputable def chanShading (p : Fin inp.N) (B : Fin inp.C → ℚ)
    (raw : Fin 3 → ℚ) (c : Fin 3) (v : Fin inp.C) : ℝ :=
  (∑ d : Fin 3, normalOfRaw raw d * (incidentLight inp p v c d : ℝ))
    * (inlierMask inp p B v : ℝ)

/-- Line 146: `c_observations = observations[:,:,c] * inlier_mask`. -/
noncomputable def chanObs (p : Fin inp.N) (B : Fin inp.C → ℚ) (c : Fin 3)
    (v : Fin inp.C) : ℝ :=
  (inp.observationRaw p v c : ℝ) * (inlierMask inp p B v : ℝ)

/-- Line 147: the 1×1 normal-equations scalar
`c_light_intensities^T @ c_light_intensities + inlier_invalids`. -/
noncomputable def chanDenom (p : Fin inp.N) (B : Fin inp.C → ℚ)
    (raw : Fin 3 → ℚ) (c : Fin 3) : ℝ :=
  (∑ v : Fin inp.C, chanShading inp p B raw c v * chanShading inp p B raw c v)
    + (inlierInvalids inp p B : ℝ)

/-- Lines 147-148: the fitted per-channel coefficient `c_albedo`; `none`
models the `torch.inverse` exception on a zero 1×1 system. -/
noncomputable def chanCoef (p : Fin inp.N) (B : Fin inp.C → ℚ)
    (raw : Fin 3 → ℚ) (c : Fin 3) : Option ℝ :=
  if chanDenom inp p B raw c = 0 then none
  else some ((chanDenom inp p B raw c)⁻¹
    * ∑ v : Fin inp.C, chanShading inp p B raw c v * chanObs inp p B c v)

/-- Line 149: `albedos.append(np.pi * c_albedo)` (with `np.pi` modelled by
the real π). -/
noncomputable def chanAlbedo (p : Fin inp.N) (B : Fin inp.C → ℚ)
    (raw : Fin 3 → ℚ) (c : Fin 3) : Option ℝ :=
  (chanCoef inp p B raw c).map fun a => Real.pi * a

/-- Line 150: `c_residuals = c_light_intensities @ c_albedo - c_observations`. -/
noncomputable def chanResidual (p : Fin inp.N) (B : Fin inp.C → ℚ)
    (raw : Fin 3 → ℚ) (c : Fin 3) (v : Fin inp.C) : Option ℝ :=
  (chanCoef inp p B raw c).map fun a =>
    chanShading inp p B raw c v * a - chanObs inp p B c v

end CF

/-! #### The RANSAC iteration count (lines 101-110)

The code computes
`nr_its = 10*np.log(1-targeted_success_chance) / np.log(1-(1-estimated_outlier_ratio)**subset_size)`
when `subset_size < C` and `1` otherwise, then runs `range(int(nr_its))`
iterations.  Floating-point logarithms are modelled by real logarithms and
Python's `int(...)` by truncation toward zero. -/

namespace CF

/-- Line 105: `estimated_outlier_ratio = 0.20`. -/
noncomputable def estimatedOutlierFrac : ℝ := 1 / 5

/-- Line 106: `targeted_success_chance = 1 - 1e-4`. -/
noncomputable def targetedSuccessChance : ℝ := 1 - 1 / 10000

/-- Line 107: the value of `nr_its` as a real number. -/
noncomputable def nrIts (C : ℕ) : ℝ :=
  if min C 6 < C then
    10 * Real.log (1 - targetedSuccessChance)
      / Real.log (1 - (1 - estimatedOutlierFrac) ^ min C 6)
  else 1

/-- Python's `int(...)` on a real value: truncation toward zero. -/
noncomputable def pyInt (x : ℝ) : ℤ :=
  if 0 ≤ x then ⌊x⌋ else -⌊-x⌋

/-- The number of RANSAC iterations executed by the loop
`for iteration in range(int(nr_its))` (line 110-111). -/
noncomputable def ransacIterationCount (C : ℕ) : ℕ :=
  (pyInt (nrIts C)).toNat

end CF

/-! ### Location parametrizations (`code/parametrizations/locations.py`)

Depth maps, masks and images are modelled as functions on `ℤ × ℤ` (zero /
false outside the `H × W` grid); the inverse intrinsics `invK` are a real
3×3 matrix and the inverse extrinsics `invRt` a real 3×4 matrix (the code
only reads `invRt[:3,:3]` and `invRt[:3,3:]`). -/

/-- The state stored by `DepthMapParametrization.initialize`
(lines 122-127). -/
structure DState where
  H : ℕ
  W : ℕ
  depth : ℤ → ℤ → ℝ
  mask : ℤ → ℤ → Bool
  invK : Matrix (Fin 3) (Fin 3) ℝ
  invRt : Matrix (Fin 3) (Fin 4) ℝ

namespace Loc

variable (st : DState)

/-- Model of `DepthMapParametrization.initialize` (lines 122-127): the method only
stores its arguments (and the point count, recomputed on demand here); it
performs no validation, so it always succeeds. -/
def initializeDepthMap (H W : ℕ) (depth : ℤ → ℤ → ℝ) (mask : ℤ → ℤ → Bool)
    (invK : Matrix (Fin 3) (Fin 3) ℝ) (invRt : Matrix (Fin 3) (Fin 4) ℝ) :
    Except PyError DState :=
  Except.ok { H := H, W := W, depth := depth, mask := mask, invK := invK, invRt := invRt }

/-- The camera location `invRt[:3,3:]` (line 57). -/
def camloc : Vec3 := fun r => st.invRt r 3

/-- The rotation block `invRt[:3,:3]`. -/
def rotPart : Matrix (Fin 3) (Fin 3) ℝ :=
  Matrix.of fun a b => st.invRt a b.castSucc

/-- The homogeneous pixel vector `[x, y, 1]` of row `i`, column `j`. -/
noncomputable def pixHom (i j : ℤ) : Vec3 := ![(j : ℝ), (i : ℝ), 1]

/-- Modelled from the spec: `depth_map_to_locations` from
`utils/depth_maps.py` is not among the provided sources; the spec describes
it as unprojecting each pixel's depth through `(invK, invRt)`:
`point = invRt[:3,:3] @ (invK @ [x,y,1] * depth) + invRt[:3,3]`. -/
noncomputable def locWorld (i j : ℤ) : Vec3 :=
  (rotPart st).mulVec (st.depth i j • st.invK.mulVec (pixHom i j)) + camloc st

/-- The row-major list of masked grid cells; boolean indexing `image[mask]`
gathers (and `image[mask] = v` scatters) in this order. -/
def maskedCells : List (ℤ × ℤ) :=
  (List.range st.H).flatMap fun i : ℕ =>
    (List.range st.W).filterMap fun j : ℕ =>
      if st.mask (i : ℤ) (j : ℤ) then some ((i : ℤ), (j : ℤ)) else none

/-- The row-major list of cells of `mask[:-1,:-1]` that are masked (used by
the second shape convention of `create_vector`, lines 147-152). -/
def maskedCellsSub : List (ℤ × ℤ) :=
  (List.range (st.H - 1)).flatMap fun i : ℕ =>
    (List.range (st.W - 1)).filterMap fun j : ℕ =>
      if st.mask (i : ℤ) (j : ℤ) then some ((i : ℤ), (j : ℤ)) else none

/-- Model of `location_vector` (lines 129-132): the world points of the masked
pixels, in row-major order. -/
noncomputable def locationVector : List Vec3 :=
  (maskedCells st).map fun c => locWorld st c.1 c.2

/-- Model of `get_point_count` and the stored `point_count = mask.sum().item()`
(line 127). -/
def pointCount : ℕ :=
  ∑ i ∈ Finset.range st.H, ∑ j ∈ Finset.range st.W, if st.mask i j then 1 else 0

/-- Model of `create_image` (lines 137-142): scatter the measurement list into the
masked cells of a zero image. -/
def createImage {α : Type} [Zero α] (v : List α) : ℤ → ℤ → α :=
  fun i j => scatterGet (maskedCells st) v (i, j) 0

/-- Model of `create_vector` (lines 144-154): gather the masked cells when the image
has the exact mask shape, gather over `mask[:-1,:-1]` when the image is one
row and one column smaller, and fail with a shape-mismatch error
otherwise. -/
def createVector {α : Type} (Himg Wimg : ℕ) (img : ℤ → ℤ → α) :
    Except PyError (List α) :=
  if Himg = st.H ∧ Wimg = st.W then
    Except.ok ((maskedCells st).map fun c => img c.1 c.2)
  else if st.H = Himg + 1 ∧ st.W = Wimg + 1 then
    Except.ok ((maskedCellsSub st).map fun c => img c.1 c.2)
  else Except.error PyError.shapeMismatch

/-- Line 52: whether the mask reaches the bottom or right image edge,
`mask[-1,:].sum() + mask[:,-1].sum() > 0`. -/
def borderTouchB : Bool :=
  ((List.range st.W).any fun j : ℕ => st.mask ((st.H : ℤ) - 1) (j : ℤ))
    || ((List.range st.H).any fun i : ℕ => st.mask (i : ℤ) ((st.W : ℤ) - 1))

/-! #### The implied normal image (lines 49-99) -/

/-- Line 51: `location_image = create_image(location_vector())`. -/
noncomputable def locImg : ℤ → ℤ → Vec3 :=
  createImage st (locationVector st)

/-- Membership of a pixel in the `(H-1) × (W-1)` core grid on which the
finite-difference normals are computed. -/
def inGridCore (i j : ℤ) : Prop :=
  0 ≤ i ∧ i < (st.H : ℤ) - 1 ∧ 0 ≤ j ∧ j < (st.W : ℤ) - 1

instance (i j : ℤ) : Decidable (inGridCore st i j) := by
  unfold inGridCore
  infer_instance

/-- Line 54: `down_vectors = normalize(location_image[:-1,:-1] - location_image[1:,:-1])`. -/
noncomputable def downVec (i j : ℤ) : Vec3 :=
  normalize (locImg st i j - locImg st (i + 1) j)

/-- Line 55: `right_vectors = normalize(location_image[:-1,:-1] - location_image[:-1,1:])`. -/
noncomputable def rightVec (i j : ℤ) : Vec3 :=
  normalize (locImg st i j - locImg st i (j + 1))

/-- Line 56: `normal_image = normalize(cross_product(down_vectors, right_vectors))`. -/
noncomputable def crossNormal (i j : ℤ) : Vec3 :=
  normalize (cross_product (downVec st i j) (rightVec st i j))

/-- The sign function used by `.sign()` on a float tensor. -/
noncomputable def sgn (x : ℝ) : ℝ :=
  if 0 < x then 1 else if x < 0 then -1 else 0

/-- Lines 57-63: the finite-difference normal after the camera-facing sign
flip `normal_image * inner_product(normal_image, camloc - location_image).sign()`,
zero outside the core grid (matching the zero padding of the conv input). -/
noncomputable def preNormal (i j : ℤ) : Vec3 :=
  if inGridCore st i j then
    sgn (inner_product (crossNormal st i j) (camloc st - locImg st i j))
      • crossNormal st i j
  else 0

/-- The 5×5 window of offsets of the boundary-repair convolution
(lines 65-69, `padding=2`). -/
def windowOffsets : Finset (ℤ × ℤ) :=
  Finset.Icc (-2 : ℤ) 2 ×ˢ Finset.Icc (-2 : ℤ) 2

/-- Lines 65-69: `local_normal_mean = normalize(conv2d(normal_image, ones(5,5), padding=2))`. -/
noncomputable def localMean (i j : ℤ) : Vec3 :=
  normalize (∑ o ∈ windowOffsets, preNormal st (i + o.1) (j + o.2))

/-- Lines 78-80: `mean_normal = normalize(local_normal_mean.view(-1,3).sum(dim=0))`,
the normalized sum of the windowed means over the whole core grid. -/
noncomputable def meanNormal : Vec3 :=
  normalize (∑ i ∈ Finset.range (st.H - 1), ∑ j ∈ Finset.range (st.W - 1),
    localMean st (i : ℤ) (j : ℤ))

/-- Lines 71-73: replace the normals of masked pixels that are invalid (zero
norm) or have an unmasked down/right neighbour by the windowed mean. -/
noncomputable def stage1 (i j : ℤ) : Vec3 :=
  if inGridCore st i j ∧ st.mask i j = true
      ∧ (vnorm (preNormal st i j) = 0
        ∨ ¬ st.mask (i + 1) j = true ∨ ¬ st.mask i (j + 1) = true) then
    localMean st i j
  else preNormal st i j

/-- Lines 76-81: masked pixels that are still zero take the global mean
direction. -/
noncomputable def stage2 (i j : ℤ) : Vec3 :=
  if inGridCore st i j ∧ st.mask i j = true ∧ vnorm (stage1 st i j) = 0 then
    meanNormal st
  else stage1 st i j

/-- Lines 82-97: the final normal image, zero-padded by one row and one
column back to the full `H × W` grid. -/
noncomputable def finalNormal (i j : ℤ) : Vec3 :=
  if inGridCore st i j then stage2 st i j else 0

/-- Model of `implied_normal_image` (lines 49-99): fails with the fatal
configuration error of `utils.logging.error` (modelled from the spec) when
the mask reaches the bottom or right edge, and otherwise produces the
repaired, zero-padded normal image. -/
noncomputable def impliedNormalImage : Except PyError (ℤ → ℤ → Vec3) :=
  if borderTouchB st then Except.error PyError.configurationError
  else Except.ok (finalNormal st)

end Loc

/-! #### `PlaneParametrization.initialize` (lines 182-195) -/

/-- The state that `PlaneParametrization.initialize` would store if its body
completed. -/
structure PState where
  H : ℕ
  W : ℕ
  mask : ℤ → ℤ → Bool
  invK : Matrix (Fin 3) (Fin 3) ℝ
  invRt : Matrix (Fin 3) (Fin 4) ℝ
  pPlane : Vec3
  cameraRays : List Vec3
  pointCount : ℕ

namespace Loc

/-- The names visible at line 190 of `parametrizations/locations.py`: the
method's locals bound so far and the names defined at module scope (its
imports and top-level definitions).  Neither `H` nor `W` is among them. -/
def planeInitScope : List PyName :=
  [PyName.selfVar, PyName.depthVar, PyName.maskVar, PyName.invKVar,
   PyName.invRtVar, PyName.worldPointsVar, PyName.abcClass,
   PyName.abstractmethodFn, PyName.torchModule, PyName.parametrizationClass,
   PyName.depthMapToLocationsFn, PyName.errorFn, PyName.innerProductFn,
   PyName.crossProductFn, PyName.normalizeFn, PyName.normFn,
   PyName.lruCacheFn, PyName.locationParametrizationClass,
   PyName.depthMapParametrizationClass, PyName.planeParametrizationClass,
   PyName.locationParametrizationFactoryFn]

/-- Python name resolution at line 190: a name not in scope raises a
`NameError`. -/
def resolveName (n : PyName) : Except PyError Unit :=
  if n ∈ planeInitScope then Except.ok () else Except.error (PyError.nameNotFound n)

/-- Model of `PlaneParametrization.initialize` (lines 182-195).  Lines 183-188 store
the calibration and fit the plane parameter without raising; line 190 then
evaluates `torch.arange(0, W)`, which requires resolving the name `W`
(and subsequently `H`), neither of which is bound in the method or at module
scope.  The state construction after the lookups is therefore unreachable
and is modelled by a default value. -/
noncomputable def planeInitialize (H W : ℕ) (depth : ℤ → ℤ → ℝ)
    (mask : ℤ → ℤ → Bool) (invK : Matrix (Fin 3) (Fin 3) ℝ)
    (invRt : Matrix (Fin 3) (Fin 4) ℝ) : Except PyError PState :=
  (resolveName PyName.varW).bind fun _ =>
    (resolveName PyName.varH).bind fun _ =>
      Except.ok
        { H := H, W := W, mask := mask, invK := invK, invRt := invRt,
          pPlane := 0, cameraRays := [], pointCount := 0 }

end Loc

/-! ### Helper lemmas about the RANSAC loop -/

attribute [ext] RState

namespace CF

variable (inp : CFInput)

instance : DecidableEq (RState inp) := fun a b =>
  decidable_of_iff (a.bestCount = b.bestCount ∧ a.bestInliers = b.bestInliers) (by
    cases a; cases b; simp)

theorem ransacStep_some_elim {m : ℕ} (st : RState inp) (S : Fin m → Fin inp.C)
    (st' : RState inp) (h : ransacStep inp st S = some st') :
    ∃ hs : ∀ p, (solveSubsetPoint inp p S).isSome,
      st' = { bestCount := fun p =>
                st.bestCount p
                  * (1 - if inlierCount inp p ((solveSubsetPoint inp p S).get (hs p))
                        > st.bestCount p then 1 else 0)
                + inlierCount inp p ((solveSubsetPoint inp p S).get (hs p))
                  * (if inlierCount inp p ((solveSubsetPoint inp p S).get (hs p))
                        > st.bestCount p then 1 else 0)
              bestInliers := fun p v =>
                st.bestInliers p v
                  * (1 - if inlierCount inp p ((solveSubsetPoint inp p S).get (hs p))
                        > st.bestCount p then 1 else 0)
                + inlierFlag inp p ((solveSubsetPoint inp p S).get (hs p)) v
                  * (if inlierCount inp p ((solveSubsetPoint inp p S).get (hs p))
                        > st.bestCount p then 1 else 0) } := by
  unfold ransacStep at h
  by_cases hs : ∀ p, (solveSubsetPoint inp p S).isSome
  · refine ⟨hs, ?_⟩
    rw [dif_pos hs] at h
    exact (Option.some_injective _ h).symm
  · rw [dif_neg hs] at h
    cases h

theorem ransacStep_bestCount_mono {m : ℕ} (st : RState inp)
    (S : Fin m → Fin inp.C) (st' : RState inp) (p : Fin inp.N)
    (h : ransacStep inp st S = some st') :
    st.bestCount p ≤ st'.bestCount p := by
  obtain ⟨hs, rfl⟩ := ransacStep_some_elim inp st S st' h
  set cnt := inlierCount inp p ((solveSubsetPoint inp p S).get (hs p)) with hcnt
  by_cases hgt : cnt > st.bestCount p
  · simp only [if_pos hgt]
    calc st.bestCount p ≤ cnt := le_of_lt hgt
    _ = st.bestCount p * (1 - 1) + cnt * 1 := by ring
  · simp only [if_neg hgt]
    have : st.bestCount p * (1 - 0) + cnt * 0 = st.bestCount p := by ring
    rw [this]

theorem ransacStep_tie_keeps {m : ℕ} (st : RState inp)
    (S : Fin m → Fin inp.C) (st' : RState inp) (p : Fin inp.N)
    (h : ransacStep inp st S = some st')
    (hchanged : st'.bestInliers p ≠ st.bestInliers p) :
    st.bestCount p < st'.bestCount p := by
  obtain ⟨hs, rfl⟩ := ransacStep_some_elim inp st S st' h
  set cnt := inlierCount inp p ((solveSubsetPoint inp p S).get (hs p)) with hcnt
  by_cases hgt : cnt > st.bestCount p
  · simp only [if_pos hgt]
    calc st.bestCount p < cnt := hgt
    _ = st.bestCount p * (1 - 1) + cnt * 1 := by ring
  · exfalso
    apply hchanged
    funext v
    simp only [if_neg hgt]
    ring

theorem ransacLoop_none {m : ℕ} (draws : List (Fin m → Fin inp.C)) :
    draws.foldl (fun acc S => acc.bind fun s => ransacStep inp s S)
      (none : Option (RState inp)) = none := by
  induction draws with
  | nil => rfl
  | cons S rest ih => simpa using ih

theorem ransacLoop_bestCount_mono {m : ℕ} :
    ∀ (draws : List (Fin m → Fin inp.C)) (st st' : RState inp) (p : Fin inp.N),
      ransacLoop inp draws st = some st' → st.bestCount p ≤ st'.bestCount p := by
  intro draws
  induction draws with
  | nil =>
    intro st st' p h
    unfold ransacLoop at h
    simp only [List.foldl_nil] at h
    cases h
    exact le_refl _
  | cons S rest ih =>
    intro st st' p h
    unfold ransacLoop at h
    simp only [List.foldl_cons, Option.some_bind] at h
    cases hstep : ransacStep inp st S with
    | none =>
      rw [hstep] at h
      rw [ransacLoop_none] at h
      cases h
    | some stm =>
      rw [hstep] at h
      have h2 : ransacLoop inp rest stm = some st' := h
      exact le_trans (ransacStep_bestCount_mono inp st S stm p hstep) (ih stm st' p h2)

end CF

/-! ### Concrete example inputs used by witnesses and counterexamples -/

/-- A 1-point, 1-view input whose light and observation data are all zero
(sentinel `-1`, no shadowing, no occlusion). -/
def exZero : CFInput :=
  { N := 1, C := 1,
    lightIntensity := fun _ _ _ => 0,
    lightDirection := fun _ _ _ => 0,
    shadow := fun _ _ => false,
    observationRaw := fun _ _ _ => 0,
    occlusionRaw := fun _ _ => false,
    sentinel := -1 }

/-- The one-element subset draw of the single view of `exZero`. -/
def exZeroSubset : Fin 1 → Fin 1 := fun _ => 0

/-- The RANSAC state reached from the initial state after one iteration on
`exZero`: the zero solution has residual `0`, so the single valid view is an
inlier and replaces the `-1` sentinel count. -/
def exZeroStep : RState exZero :=
  { bestCount := fun _ => 1, bestInliers := fun _ _ => 1 }

/-- A 1-point, 1-view input whose observation equals the sentinel `5` on
channel 1. -/
def exZeroC9w : CFInput :=
  { N := 1, C := 1,
    lightIntensity := fun _ _ _ => 0,
    lightDirection := fun _ _ _ => 0,
    shadow := fun _ _ => false,
    observationRaw := fun _ _ c => if c = 1 then 5 else 0,
    occlusionRaw := fun _ _ => false,
    sentinel := 5 }

/-- A 1-point, 1-view input whose observation equals the sentinel `5` on
channel 0 only (channels 1 and 2 are `7`). -/
def exZeroC9c : CFInput :=
  { N := 1, C := 1,
    lightIntensity := fun _ _ _ => 0,
    lightDirection := fun _ _ _ => 0,
    shadow := fun _ _ => false,
    observationRaw := fun _ _ c => if c = 0 then 5 else 7,
    occlusionRaw := fun _ _ => false,
    sentinel := 5 }

/-! ### C10 -/

/-- C10: for every input, `PlaneParametrization.initialize` raises an error:
its body references the name `W` (and `H`), which is not defined in its
scope, when constructing the per-pixel camera rays, so the plane-backed
variant can never be successfully initialized through this operation. -/
theorem claim_C10_plane_initialize_always_raises (H W : ℕ)
    (depth : ℤ → ℤ → ℝ) (mask : ℤ → ℤ → Bool)
    (invK : Matrix (Fin 3) (Fin 3) ℝ) (invRt : Matrix (Fin 3) (Fin 4) ℝ) :
    Loc.planeInitialize H W depth mask invK invRt
      = Except.error (PyError.nameNotFound PyName.varW) := by
  have hmem : PyName.varW ∉ Loc.planeInitScope := by decide
  unfold Loc.planeInitialize
  unfold Loc.resolveName
  rw [if_neg hmem]
  rfl

/-! ### C9 -/

/-- C9 (amended): an observation whose color channel 1 equals the reserved
out-of-bounds sentinel is marked occluded and excluded from the validity
mask (the code tests only channel 1, not all channels). -/
theorem claim_C9_sentinel_channel1_occludes (inp : CFInput) (p : Fin inp.N)
    (v : Fin inp.C) (h : inp.observationRaw p v 1 = inp.sentinel) :
    CF.occlusion inp p v = true ∧ CF.validMask inp p v = 0 := by
  have hocc : CF.occlusion inp p v = true := by
    unfold CF.occlusion
    rw [decide_eq_true h]
    simp
  refine ⟨hocc, ?_⟩
  unfold CF.validMask CF.occlusionMask
  rw [hocc]
  simp

/-- Witness for C9 at a concrete input: channel 1 equal to the sentinel. -/
theorem claim_C9_witness :
    exZeroC9w.observationRaw (0 : Fin 1) (0 : Fin 1) 1 = exZeroC9w.sentinel
      ∧ CF.occlusion exZeroC9w (0 : Fin 1) (0 : Fin 1) = true
      ∧ CF.validMask exZeroC9w (0 : Fin 1) (0 : Fin 1) = 0 :=
  ⟨rfl, claim_C9_sentinel_channel1_occludes exZeroC9w (0 : Fin 1) (0 : Fin 1) rfl⟩

/-- Counterexample to C9 as stated: an observation whose channel 0 (but not
channel 1) equals the sentinel is NOT marked occluded and stays in the
validity mask. -/
theorem claim_C9_counterexample :
    exZeroC9c.observationRaw (0 : Fin 1) (0 : Fin 1) 0 = exZeroC9c.sentinel
      ∧ CF.occlusion exZeroC9c (0 : Fin 1) (0 : Fin 1) = false
      ∧ CF.validMask exZeroC9c (0 : Fin 1) (0 : Fin 1) = 1 := by
  have hocc : CF.occlusion exZeroC9c (0 : Fin 1) (0 : Fin 1) = false := by
    rw [CF.occlusion]
    rw [show exZeroC9c.occlusionRaw (0 : Fin 1) (0 : Fin 1) = false from rfl]
    rw [show exZeroC9c.observationRaw (0 : Fin 1) (0 : Fin 1) 1 = 7 from rfl]
    rw [show exZeroC9c.sentinel = 5 from rfl]
    simp only [Bool.false_or, decide_eq_false_iff_not]
    norm_num
  refine ⟨rfl, hocc, ?_⟩
  rw [CF.validMask, CF.occlusionMask, hocc]
  rw [CF.shadowingMask, show exZeroC9c.shadow (0 : Fin 1) (0 : Fin 1) = false from rfl]
  norm_num

/-! ### C4 -/

/-- A 2×2 depth-map state whose mask touches the last row and column
(only cell `(1,1)` is masked). -/
noncomputable def c4st : DState :=
  { H := 2, W := 2,
    depth := fun _ _ => 1,
    mask := fun i j => decide (i = 1) && decide (j = 1),
    invK := 1, invRt := 0 }

/-- C4 (amended): a mask with a true cell in the last row or column does not
make `initialize` fail — `initialize` stores the state without validation —
but the subsequent `implied_normal_image()` fails with a
`ConfigurationError`. -/
theorem claim_C4_border_mask_rejected_in_normal_image (st : DState)
    (h : Loc.borderTouchB st = true) :
    Loc.initializeDepthMap st.H st.W st.depth st.mask st.invK st.invRt
        = Except.ok st
      ∧ Loc.impliedNormalImage st = Except.error PyError.configurationError := by
  constructor
  · rfl
  · rw [Loc.impliedNormalImage, if_pos h]

/-- Witness for C4 at a concrete border-touching mask. -/
theorem claim_C4_witness :
    Loc.borderTouchB c4st = true
      ∧ Loc.initializeDepthMap c4st.H c4st.W c4st.depth c4st.mask c4st.invK
          c4st.invRt = Except.ok c4st
      ∧ Loc.impliedNormalImage c4st = Except.error PyError.configurationError := by
  have h : Loc.borderTouchB c4st = true := rfl
  exact ⟨h, claim_C4_border_mask_rejected_in_normal_image c4st h⟩

/-- Counterexample to C4 as stated: for this border-touching mask,
`initialize` succeeds (it does not raise a `ConfigurationError`). -/
theorem claim_C4_counterexample :
    Loc.borderTouchB c4st = true
      ∧ Loc.initializeDepthMap 2 2 c4st.depth c4st.mask c4st.invK c4st.invRt
          = Except.ok c4st :=
  ⟨rfl, rfl⟩

/-! ### C2 -/

/-- Computation lemma: `exZero` has no occluded observations. -/
theorem exZero_occlusion (p : Fin exZero.N) (v : Fin exZero.C) :
    CF.occlusion exZero p v = false := by
  rw [CF.occlusion]
  rw [show exZero.occlusionRaw p v = false from rfl]
  rw [show exZero.observationRaw p v 1 = 0 from rfl]
  rw [show exZero.sentinel = -1 from rfl]
  simp only [Bool.false_or, decide_eq_false_iff_not]
  norm_num

/-- Computation lemma: every view of `exZero` is valid. -/
theorem exZero_validMask (p : Fin exZero.N) (v : Fin exZero.C) :
    CF.validMask exZero p v = 1 := by
  rw [CF.validMask, CF.occlusionMask, exZero_occlusion, CF.shadowingMask]
  rw [show exZero.shadow p v = false from rfl]
  norm_num

/-- Computation lemma: the gray light-transport rows of `exZero` vanish. -/
theorem exZero_grayLight (p : Fin exZero.N) (v : Fin exZero.C) (d : Fin 3) :
    CF.grayLight exZero p v d = 0 := by
  rw [CF.grayLight]
  have h : ∀ c : Fin 3, CF.incidentLight exZero p v c d = 0 := by
    intro c
    rw [CF.incidentLight, show exZero.lightIntensity p v c = 0 from rfl, zero_mul]
  simp [h]

/-- Computation lemma: the gray observations of `exZero` vanish. -/
theorem exZero_grayObs (p : Fin exZero.N) (v : Fin exZero.C) :
    CF.grayObs exZero p v = 0 := by
  rw [CF.grayObs]
  have h : ∀ c : Fin 3, exZero.observationRaw p v c = 0 := fun _ => rfl
  simp [h]

/-- Computation lemma: the subset design matrix of `exZero` is zero. -/
theorem exZero_subsetMatrix (p : Fin exZero.N) :
    CF.subsetMatrix exZero p exZeroSubset = 0 := by
  apply Matrix.ext
  intro k d
  rw [CF.subsetMatrix]
  show CF.grayLight exZero p (exZeroSubset k) d = (0 : Matrix (Fin 1) (Fin 3) ℚ) k d
  rw [exZero_grayLight]
  simp

/-- Computation lemma: the regularized subset system of `exZero` is the
scaled identity. -/
theorem exZero_subsetNormalMatrix (p : Fin exZero.N) :
    CF.subsetNormalMatrix exZero p exZeroSubset
      = (100000000 : ℚ) • (1 : Matrix (Fin 3) (Fin 3) ℚ) := by
  rw [CF.subsetNormalMatrix, exZero_subsetMatrix]
  have hsvc : CF.subsetValidCount exZero p exZeroSubset = 1 := by
    rw [CF.subsetValidCount]
    simp [exZero_validMask]
  have hflag : CF.subsetInvalids exZero p exZeroSubset = 1 := by
    rw [CF.subsetInvalids, hsvc]
    norm_num
  rw [hflag, CF.regScale]
  simp

/-- Computation lemma: the subset solve of `exZero` succeeds with the zero
solution. -/
theorem exZero_solveSubset (p : Fin exZero.N) :
    CF.solveSubsetPoint exZero p exZeroSubset = some 0 := by
  rw [CF.solveSubsetPoint, exZero_subsetNormalMatrix]
  have hdet : ((100000000 : ℚ) • (1 : Matrix (Fin 3) (Fin 3) ℚ)).det ≠ 0 := by
    rw [Matrix.det_smul, Matrix.det_one]
    norm_num
  rw [CF.matInvQ, if_neg hdet]
  rw [Option.map_some']
  congr 1
  rw [exZero_subsetMatrix, Matrix.transpose_zero, Matrix.mul_zero, Matrix.zero_mulVec]

/-- Computation lemma: under the zero solution every view of `exZero` is an
inlier. -/
theorem exZero_inlierFlag (p : Fin exZero.N) (v : Fin exZero.C) :
    CF.inlierFlag exZero p 0 v = 1 := by
  rw [CF.inlierFlag, CF.residualAt]
  have hres : (∑ d : Fin 3, CF.grayLight exZero p v d * (0 : Fin 3 → ℚ) d)
      - CF.grayObs exZero p v = 0 := by
    simp [exZero_grayLight, exZero_grayObs]
  rw [hres, exZero_validMask, CF.threshold]
  norm_num

/-- Computation lemma: the inlier count of the zero solution on `exZero`. -/
theorem exZero_inlierCount (p : Fin exZero.N) :
    CF.inlierCount exZero p 0 = 1 := by
  rw [CF.inlierCount]
  simp [exZero_inlierFlag, show exZero.C = 1 from rfl]

/-- Computation lemma: one RANSAC iteration on `exZero` from the initial
state adopts the single view as inlier set with best count `1`. -/
theorem exZero_ransacStep :
    CF.ransacStep exZero (CF.initialRState exZero) exZeroSubset
      = some exZeroStep := by
  have hsome : ∀ q : Fin exZero.N, (CF.solveSubsetPoint exZero q exZeroSubset).isSome := by
    intro q
    rw [exZero_solveSubset]
    rfl
  rw [CF.ransacStep, dif_pos hsome]
  apply congrArg some
  have hgt : (1 : ℚ) > -1 := by norm_num
  refine RState.ext ?_ ?_
  · funext q
    simp only [exZero_solveSubset, Option.get_some, exZero_inlierCount,
      CF.initialRState, exZeroStep, hgt, if_true]
    norm_num
  · funext q v
    simp only [exZero_solveSubset, Option.get_some, exZero_inlierCount,
      exZero_inlierFlag, CF.initialRState, exZeroStep, hgt, if_true]
    norm_num

/-- C2: per point, the best inlier count is initialized to `-1`, is
monotonically non-decreasing across RANSAC iterations, and the stored best
inlier mask is replaced only when an iteration's inlier count is strictly
greater than the current best (ties keep the earlier result). -/
theorem claim_C2_ransac_best_count_invariants (inp : CFInput) {m : ℕ}
    (p : Fin inp.N) (draws : List (Fin m → Fin inp.C)) (S : Fin m → Fin inp.C)
    (st st' : RState inp)
    (hloop : CF.ransacLoop inp draws (CF.initialRState inp) = some st)
    (hstep : CF.ransacStep inp st S = some st') :
    (CF.initialRState inp).bestCount p = -1
      ∧ (CF.initialRState inp).bestCount p ≤ st.bestCount p
      ∧ st.bestCount p ≤ st'.bestCount p
      ∧ (st'.bestInliers p ≠ st.bestInliers p → st.bestCount p < st'.bestCount p) :=
  ⟨rfl,
   CF.ransacLoop_bestCount_mono inp draws (CF.initialRState inp) st p hloop,
   CF.ransacStep_bestCount_mono inp st S st' p hstep,
   CF.ransacStep_tie_keeps inp st S st' p hstep⟩

/-- Witness for C2 on a concrete 1-point, 1-view input: the empty prefix of
iterations reaches the initial state, and one further concrete iteration
succeeds. -/
theorem claim_C2_witness :
    (CF.initialRState exZero).bestCount (0 : Fin 1) = -1
      ∧ (CF.initialRState exZero).bestCount (0 : Fin 1)
          ≤ (CF.initialRState exZero).bestCount (0 : Fin 1)
      ∧ (CF.initialRState exZero).bestCount (0 : Fin 1)
          ≤ exZeroStep.bestCount (0 : Fin 1)
      ∧ (exZeroStep.bestInliers (0 : Fin 1)
            ≠ (CF.initialRState exZero).bestInliers (0 : Fin 1) →
          (CF.initialRState exZero).bestCount (0 : Fin 1)
            < exZeroStep.bestCount (0 : Fin 1)) :=
  claim_C2_ransac_best_count_invariants exZero (0 : Fin 1) [] exZeroSubset
    (CF.initialRState exZero) exZeroStep rfl exZero_ransacStep

/-! ### C1 -/

/-- Nonnegativity of the validity mask. -/
theorem CF.validMask_nonneg (inp : CFInput) (p : Fin inp.N) (v : Fin inp.C) :
    0 ≤ CF.validMask inp p v := by
  rw [CF.validMask, CF.shadowingMask, CF.occlusionMask]
  by_cases h1 : inp.shadow p v <;> by_cases h2 : CF.occlusion inp p v <;>
    simp [h1, h2]

/-- Nonnegativity of the inlier flags. -/
theorem CF.inlierFlag_nonneg (inp : CFInput) (p : Fin inp.N) (sol : Fin 3 → ℚ)
    (v : Fin inp.C) : 0 ≤ CF.inlierFlag inp p sol v := by
  rw [CF.inlierFlag]
  refine mul_nonneg ?_ (CF.validMask_nonneg inp p v)
  by_cases h : |CF.residualAt inp p sol v| < CF.threshold <;> simp [h]

/-- Nonnegativity of the inlier counts. -/
theorem CF.inlierCount_nonneg (inp : CFInput) (p : Fin inp.N) (sol : Fin 3 → ℚ) :
    0 ≤ CF.inlierCount inp p sol := by
  rw [CF.inlierCount]
  exact Finset.sum_nonneg fun v _ => CF.inlierFlag_nonneg inp p sol v

/-- C1 (amended): when `subset_size = min(C,6) < C` the RANSAC loop runs
exactly `floor(10*ln(1-target_success)/ln(1-(1-outlier_fraction)^subset_size))`
iterations, and exactly `1` iteration when `C ≤ 6`; in the latter case the
resulting inlier mask of the single iteration consists of the valid views
whose full-set residual under that iteration's least-squares solution is
below the threshold (not necessarily the full valid-view set). -/
theorem claim_C1_ransac_iteration_count (D : ℕ) (inp : CFInput)
    (S : Fin (CF.subsetSize inp) → Fin inp.C) (st' : RState inp)
    (hC : inp.C ≤ 6)
    (hloop : CF.ransacLoop inp [S] (CF.initialRState inp) = some st') :
    (min D 6 < D →
      CF.ransacIterationCount D
        = (⌊10 * Real.log (1 - CF.targetedSuccessChance)
            / Real.log (1 - (1 - CF.estimatedOutlierFrac) ^ min D 6)⌋).toNat)
    ∧ CF.ransacIterationCount inp.C = 1
    ∧ ∃ hs : ∀ p, (CF.solveSubsetPoint inp p S).isSome = true,
        ∀ p v, st'.bestInliers p v
          = CF.inlierFlag inp p ((CF.solveSubsetPoint inp p S).get (hs p)) v := by
  refine ⟨?_, ?_, ?_⟩
  · intro hlt
    have h6 : min D 6 = 6 := by omega
    have hnum : Real.log (1 - CF.targetedSuccessChance) < 0 := by
      rw [show (1 : ℝ) - CF.targetedSuccessChance = 1 / 10000 by
        rw [CF.targetedSuccessChance]; norm_num]
      exact Real.log_neg (by norm_num) (by norm_num)
    have hden : Real.log (1 - (1 - CF.estimatedOutlierFrac) ^ min D 6) < 0 := by
      rw [h6, show (1 : ℝ) - (1 - CF.estimatedOutlierFrac) ^ 6 = 11529 / 15625 by
        rw [CF.estimatedOutlierFrac]; norm_num]
      exact Real.log_neg (by norm_num) (by norm_num)
    have hpos : 0 ≤ 10 * Real.log (1 - CF.targetedSuccessChance)
        / Real.log (1 - (1 - CF.estimatedOutlierFrac) ^ min D 6) := by
      have h10 : 10 * Real.log (1 - CF.targetedSuccessChance) < 0 :=
        mul_neg_of_pos_of_neg (by norm_num) hnum
      exact le_of_lt (div_pos_of_neg_of_neg h10 hden)
    rw [CF.ransacIterationCount, CF.nrIts, if_pos hlt, CF.pyInt, if_pos hpos]
  · have hmin : ¬ min inp.C 6 < inp.C := by omega
    rw [CF.ransacIterationCount, CF.nrIts, if_neg hmin, CF.pyInt,
      if_pos (by norm_num : (0 : ℝ) ≤ 1)]
    norm_num
  · have hstep : CF.ransacStep inp (CF.initialRState inp) S = some st' := by
      rw [CF.ransacLoop] at hloop
      simpa using hloop
    obtain ⟨hs, rfl⟩ := CF.ransacStep_some_elim inp (CF.initialRState inp) S st' hstep
    refine ⟨hs, ?_⟩
    intro p v
    have hcnt : CF.inlierCount inp p ((CF.solveSubsetPoint inp p S).get (hs p))
        > (CF.initialRState inp).bestCount p := by
      rw [show (CF.initialRState inp).bestCount p = -1 from rfl]
      have := CF.inlierCount_nonneg inp p ((CF.solveSubsetPoint inp p S).get (hs p))
      linarith
    show (CF.initialRState inp).bestInliers p v * (1 - _) + _ * _ = _
    rw [if_pos hcnt, show (CF.initialRState inp).bestInliers p v = 0 from rfl]
    ring

/-! ### C6 -/

/-- Sum of a function mapped over `List.range` agrees with the `Finset.range`
sum. -/
theorem list_range_map_sum {M : Type} [AddCommMonoid M] (f : ℕ → M) :
    ∀ n : ℕ, ((List.range n).map f).sum = ∑ i ∈ Finset.range n, f i := by
  intro n
  induction n with
  | zero => simp
  | succ n ih =>
    rw [List.range_succ, List.map_append, List.sum_append, Finset.sum_range_succ, ih]
    simp

/-- Length of a `filterMap` by a guarded `some` equals the sum of the guard
indicators. -/
theorem length_filterMap_ite {α : Type} (p : ℕ → Bool) (f : ℕ → α) :
    ∀ l : List ℕ,
      (l.filterMap fun j => if p j then some (f j) else none).length
        = (l.map fun j => if p j then 1 else 0).sum := by
  intro l
  induction l with
  | nil => rfl
  | cons a l ih =>
    by_cases hp : p a <;>
      simp [List.filterMap_cons, hp, ih, Nat.add_comm]

/-- Membership in the row-major masked-cell list. -/
theorem Loc.mem_maskedCells (st : DState) (a b : ℤ) :
    (a, b) ∈ Loc.maskedCells st
      ↔ ∃ i : ℕ, i < st.H ∧ ∃ j : ℕ, j < st.W ∧ st.mask i j = true
          ∧ a = (i : ℤ) ∧ b = (j : ℤ) := by
  simp only [Loc.maskedCells, List.mem_flatMap, List.mem_filterMap, List.mem_range]
  constructor
  · rintro ⟨i, hi, j, hj, hopt⟩
    by_cases hm : st.mask (i : ℤ) (j : ℤ)
    · rw [if_pos hm] at hopt
      have heq := Option.some_injective _ hopt
      exact ⟨i, hi, j, hj, hm, (congrArg Prod.fst heq).symm,
        (congrArg Prod.snd heq).symm⟩
    · rw [if_neg hm] at hopt
      cases hopt
  · rintro ⟨i, hi, j, hj, hm, rfl, rfl⟩
    exact ⟨i, hi, j, hj, by rw [if_pos hm]⟩

/-- The row-major masked-cell list has no duplicates. -/
theorem Loc.maskedCells_nodup (st : DState) : (Loc.maskedCells st).Nodup := by
  rw [Loc.maskedCells]
  rw [List.nodup_flatMap]
  constructor
  · intro i _
    refine List.Nodup.filterMap ?_ (List.nodup_range _)
    intro a a' b hb hb'
    rw [Option.mem_def] at hb hb'
    by_cases ha : st.mask (i : ℤ) (a : ℤ)
    · rw [if_pos ha] at hb
      by_cases ha' : st.mask (i : ℤ) (a' : ℤ)
      · rw [if_pos ha'] at hb'
        have h1 := Option.some_injective _ hb
        have h2 := Option.some_injective _ hb'
        have : ((a : ℤ)) = ((a' : ℤ)) :=
          congrArg Prod.snd (h1.trans h2.symm)
        exact Int.natCast_inj.mp this
      · rw [if_neg ha'] at hb'
        cases hb'
    · rw [if_neg ha] at hb
      cases hb
  · refine List.Pairwise.imp ?_ (List.pairwise_lt_range _)
    intro i i' hlt c hc hc'
    simp only [List.mem_filterMap, List.mem_range] at hc hc'
    obtain ⟨j, _, hj⟩ := hc
    obtain ⟨j', _, hj'⟩ := hc'
    by_cases hm : st.mask (i : ℤ) (j : ℤ)
    · rw [if_pos hm] at hj
      by_cases hm' : st.mask (i' : ℤ) (j' : ℤ)
      · rw [if_pos hm'] at hj'
        have h1 := Option.some_injective _ hj
        have h2 := Option.some_injective _ hj'
        have : ((i : ℤ)) = ((i' : ℤ)) :=
          congrArg Prod.fst (h1.trans h2.symm)
        have := Int.natCast_inj.mp this
        omega
      · rw [if_neg hm'] at hj'
        cases hj'
    · rw [if_neg hm] at hj
      cases hj

/-- The masked-cell list length equals the mask sum (`point_count`). -/
theorem Loc.maskedCells_length (st : DState) :
    (Loc.maskedCells st).length = Loc.pointCount st := by
  rw [Loc.maskedCells, Loc.pointCount, List.length_flatMap]
  have hcomp : (List.length ∘ fun i : ℕ =>
      (List.range st.W).filterMap fun j : ℕ =>
        if st.mask (i : ℤ) (j : ℤ) then some ((i : ℤ), (j : ℤ)) else none)
      = fun i : ℕ =>
          ∑ j ∈ Finset.range st.W, if st.mask (i : ℤ) (j : ℤ) then 1 else 0 := by
    funext i
    simp only [Function.comp_apply]
    rw [length_filterMap_ite (fun j : ℕ => st.mask (i : ℤ) (j : ℤ))
      (fun j : ℕ => ((i : ℤ), (j : ℤ)))]
    exact list_range_map_sum _ _
  rw [hcomp, list_range_map_sum]

/-- Reading the scattered location image at a pixel: the world point on
masked in-range cells, zero elsewhere. -/
theorem Loc.locImg_eq (st : DState) (a b : ℤ) :
    Loc.locImg st a b
      = if (a, b) ∈ Loc.maskedCells st then Loc.locWorld st a b else 0 := by
  rw [Loc.locImg, Loc.createImage]
  by_cases hmem : (a, b) ∈ Loc.maskedCells st
  · rw [if_pos hmem, Loc.locationVector]
    exact scatterGet_map (fun c : ℤ × ℤ => Loc.locWorld st c.1 c.2) 0
      (Loc.maskedCells st) (a, b) (Loc.maskedCells_nodup st) hmem
  · rw [if_neg hmem, Loc.locationVector]
    exact scatterGet_not_mem 0 (Loc.maskedCells st) _ (a, b) hmem

/-- C6: the length of `location_vector()` equals the number of true mask
cells (which is `get_point_count()`), and
`create_vector(create_image(location_vector()))` reproduces
`location_vector()` exactly. -/
theorem claim_C6_location_vector_roundtrip (st : DState) :
    (Loc.locationVector st).length = Loc.pointCount st
      ∧ Loc.createVector st st.H st.W
          (Loc.createImage st (Loc.locationVector st))
        = Except.ok (Loc.locationVector st) := by
  constructor
  · rw [Loc.locationVector, List.length_map]
    exact Loc.maskedCells_length st
  · rw [Loc.createVector, if_pos ⟨rfl, rfl⟩]
    congr 1
    have hlen : (Loc.locationVector st).length = (Loc.maskedCells st).length := by
      rw [Loc.locationVector, List.length_map]
    have h := map_scatterGet (0 : Vec3) (Loc.maskedCells st)
      (Loc.locationVector st) (Loc.maskedCells_nodup st) hlen
    calc (Loc.maskedCells st).map
          (fun c => Loc.createImage st (Loc.locationVector st) c.1 c.2)
        = (Loc.maskedCells st).map
            (fun c => scatterGet (Loc.maskedCells st) (Loc.locationVector st) c 0) := by
          refine List.map_congr_left ?_
          intro c _
          rw [Loc.createImage]
      _ = Loc.locationVector st := h

/-! ### C3 -/

/-- A regularized Gram matrix `A^T A + c • 1` with `c > 0` is nonsingular
over `ℚ`: for `v ≠ 0`, `v^T (A^T A + c 1) v = |A v|^2 + c |v|^2 > 0`. -/
theorem gram_reg_det_ne_zero {m : ℕ} (A : Matrix (Fin m) (Fin 3) ℚ) (c : ℚ)
    (hc : 0 < c) :
    (A.transpose * A + c • (1 : Matrix (Fin 3) (Fin 3) ℚ)).det ≠ 0 := by
  intro hdet
  obtain ⟨v, hv0, hv⟩ := Matrix.exists_mulVec_eq_zero_iff.mpr hdet
  have hdot : Matrix.dotProduct v
      ((A.transpose * A + c • (1 : Matrix (Fin 3) (Fin 3) ℚ)).mulVec v) = 0 := by
    rw [hv]
    exact Matrix.dotProduct_zero v
  have hexp : Matrix.dotProduct v
      ((A.transpose * A + c • (1 : Matrix (Fin 3) (Fin 3) ℚ)).mulVec v)
      = Matrix.dotProduct (A.mulVec v) (A.mulVec v)
        + c * Matrix.dotProduct v v := by
    rw [Matrix.add_mulVec, Matrix.dotProduct_add]
    congr 1
    · rw [← Matrix.mulVec_mulVec, Matrix.dotProduct_mulVec, Matrix.vecMul_transpose]
    · rw [Matrix.smul_mulVec_assoc, Matrix.one_mulVec, Matrix.dotProduct_smul,
        smul_eq_mul]
  have h1 : 0 ≤ Matrix.dotProduct (A.mulVec v) (A.mulVec v) := by
    rw [Matrix.dotProduct]
    exact Finset.sum_nonneg fun i _ => mul_self_nonneg _
  have h2 : 0 < Matrix.dotProduct v v := by
    rw [Matrix.dotProduct]
    obtain ⟨i, hi⟩ := Function.ne_iff.mp hv0
    refine Finset.sum_pos' (fun j _ => mul_self_nonneg _) ⟨i, Finset.mem_univ i, ?_⟩
    exact mul_self_pos.mpr hi
  nlinarith [hdot, hexp, h1, h2]

/-- The validity mask takes only the values `0` and `1`. -/
theorem CF.validMask_zero_or_one (inp : CFInput) (p : Fin inp.N) (v : Fin inp.C) :
    CF.validMask inp p v = 0 ∨ CF.validMask inp p v = 1 := by
  rw [CF.validMask, CF.shadowingMask, CF.occlusionMask]
  by_cases h1 : inp.shadow p v <;> by_cases h2 : CF.occlusion inp p v <;>
    simp [h1, h2]

/-- The inlier flags take only the values `0` and `1`. -/
theorem CF.inlierFlag_zero_or_one (inp : CFInput) (p : Fin inp.N)
    (sol : Fin 3 → ℚ) (v : Fin inp.C) :
    CF.inlierFlag inp p sol v = 0 ∨ CF.inlierFlag inp p sol v = 1 := by
  rw [CF.inlierFlag]
  rcases CF.validMask_zero_or_one inp p v with h | h <;> rw [h]
  · left; ring
  · by_cases hr : |CF.residualAt inp p sol v| < CF.threshold <;> simp [hr]

/-- One RANSAC iteration keeps the best-inlier entries in `{0, 1}`. -/
theorem CF.ransacStep_bestInliers_mem (inp : CFInput) {m : ℕ}
    (st : RState inp) (S : Fin m → Fin inp.C) (st' : RState inp)
    (h : CF.ransacStep inp st S = some st')
    (hmem : ∀ p v, st.bestInliers p v = 0 ∨ st.bestInliers p v = 1) :
    ∀ p v, st'.bestInliers p v = 0 ∨ st'.bestInliers p v = 1 := by
  obtain ⟨hs, rfl⟩ := CF.ransacStep_some_elim inp st S st' h
  intro p v
  set cnt := CF.inlierCount inp p ((CF.solveSubsetPoint inp p S).get (hs p)) with hcnt
  by_cases hgt : cnt > st.bestCount p
  · simp only [if_pos hgt]
    rcases CF.inlierFlag_zero_or_one inp p
        ((CF.solveSubsetPoint inp p S).get (hs p)) v with hf | hf <;>
      rw [hf]
    · left; ring
    · right; ring
  · simp only [if_neg hgt]
    rcases hmem p v with hb | hb <;> rw [hb]
    · left; ring
    · right; ring

/-- The whole RANSAC loop keeps the best-inlier entries in `{0, 1}`. -/
theorem CF.ransacLoop_bestInliers_mem (inp : CFInput) {m : ℕ} :
    ∀ (draws : List (Fin m → Fin inp.C)) (st st' : RState inp),
      CF.ransacLoop inp draws st = some st' →
      (∀ p v, st.bestInliers p v = 0 ∨ st.bestInliers p v = 1) →
      ∀ p v, st'.bestInliers p v = 0 ∨ st'.bestInliers p v = 1 := by
  intro draws
  induction draws with
  | nil =>
    intro st st' h hmem
    rw [CF.ransacLoop] at h
    simp only [List.foldl_nil] at h
    cases h
    exact hmem
  | cons S rest ih =>
    intro st st' h hmem
    rw [CF.ransacLoop] at h
    simp only [List.foldl_cons, Option.some_bind] at h
    cases hstep : CF.ransacStep inp st S with
    | none =>
      rw [hstep] at h
      rw [CF.ransacLoop_none] at h
      cases h
    | some stm =>
      rw [hstep] at h
      exact ih stm st' h (CF.ransacStep_bestInliers_mem inp st S stm hstep hmem)

/-- C3: a point with at most 2 valid views — in a RANSAC subset, in the
winning inlier set, or across the entire dataset — never causes an
exception: its 3×3 normal-equations systems are augmented with the `1e8`
diagonal regularizer and stay nonsingular, and the per-channel albedo
systems are regularized by `+1` and stay nonzero, so the solver produces a
(finite) normal and albedo for that point. -/
theorem claim_C3_degenerate_point_regularized (inp : CFInput) {m : ℕ}
    (p : Fin inp.N) (S : Fin m → Fin inp.C) (hS : Function.Injective S)
    (draws : List (Fin m → Fin inp.C)) (st' : RState inp)
    (hloop : CF.ransacLoop inp draws (CF.initialRState inp) = some st')
    (hdeg : CF.validCount inp p ≤ 2) :
    CF.invalids inp p = 1
      ∧ CF.subsetInvalids inp p S = 1
      ∧ (CF.solveSubsetPoint inp p S).isSome = true
      ∧ CF.inlierInvalids inp p (st'.bestInliers p) = 1
      ∧ (CF.refitPoint inp p (st'.bestInliers p)).isSome = true
      ∧ ∀ raw : Fin 3 → ℚ, ∀ c : Fin 3,
          CF.chanDenom inp p (st'.bestInliers p) raw c ≠ 0
            ∧ (CF.chanCoef inp p (st'.bestInliers p) raw c).isSome = true
            ∧ (CF.chanAlbedo inp p (st'.bestInliers p) raw c).isSome = true := by
  have hBmem : ∀ q v, st'.bestInliers q v = 0 ∨ st'.bestInliers q v = 1 :=
    CF.ransacLoop_bestInliers_mem inp draws (CF.initialRState inp) st' hloop
      (fun _ _ => Or.inl rfl)
  have hsubval : CF.subsetValidCount inp p S ≤ CF.validCount inp p := by
    rw [CF.subsetValidCount, CF.validCount]
    have himg : ∑ k : Fin m, CF.validMask inp p (S k)
        = ∑ v ∈ Finset.univ.image S, CF.validMask inp p v := by
      rw [Finset.sum_image (fun a _ b _ hab => hS hab)]
    rw [himg]
    exact Finset.sum_le_sum_of_subset_of_nonneg (Finset.subset_univ _)
      (fun v _ _ => CF.validMask_nonneg inp p v)
  have hsubinv : CF.subsetInvalids inp p S = 1 := by
    rw [CF.subsetInvalids, if_pos (le_trans hsubval hdeg)]
  have hinlval : CF.inlierValidCount inp p (st'.bestInliers p)
      ≤ CF.validCount inp p := by
    rw [CF.inlierValidCount, CF.validCount]
    refine Finset.sum_le_sum ?_
    intro v _
    rcases hBmem p v with hb | hb <;> rw [hb]
    · simpa using CF.validMask_nonneg inp p v
    · simp
  have hinlinv : CF.inlierInvalids inp p (st'.bestInliers p) = 1 := by
    rw [CF.inlierInvalids, if_pos (le_trans hinlval hdeg)]
  refine ⟨by rw [CF.invalids, if_pos hdeg], hsubinv, ?_, hinlinv, ?_, ?_⟩
  · rw [CF.solveSubsetPoint]
    have hdet : (CF.subsetNormalMatrix inp p S).det ≠ 0 := by
      rw [CF.subsetNormalMatrix, hsubinv]
      have : CF.regScale * 1 = (100000000 : ℚ) := by rw [CF.regScale]; ring
      rw [this]
      exact gram_reg_det_ne_zero _ _ (by norm_num)
    rw [CF.matInvQ, if_neg hdet]
    rfl
  · rw [CF.refitPoint]
    have hdet : (CF.inlierNormalMatrix inp p (st'.bestInliers p)).det ≠ 0 := by
      rw [CF.inlierNormalMatrix, hinlinv]
      have : CF.regScale * 1 = (100000000 : ℚ) := by rw [CF.regScale]; ring
      rw [this]
      exact gram_reg_det_ne_zero _ _ (by norm_num)
    rw [CF.matInvQ, if_neg hdet]
    rfl
  · intro raw c
    have hdenom : CF.chanDenom inp p (st'.bestInliers p) raw c ≠ 0 := by
      rw [CF.chanDenom, hinlinv]
      have hsq : (0 : ℝ) ≤ ∑ v : Fin inp.C,
          CF.chanShading inp p (st'.bestInliers p) raw c v
            * CF.chanShading inp p (st'.bestInliers p) raw c v :=
        Finset.sum_nonneg fun v _ => mul_self_nonneg _
      push_cast
      intro habs
      linarith
    refine ⟨hdenom, ?_, ?_⟩
    · rw [CF.chanCoef, if_neg hdenom]
      rfl
    · rw [CF.chanAlbedo, CF.chanCoef, if_neg hdenom]
      rfl

/-- Witness for C3 at the concrete degenerate input `exZero` (a single view,
hence at most 2 valid views everywhere). -/
theorem claim_C3_witness :
    CF.invalids exZero (0 : Fin 1) = 1
      ∧ CF.subsetInvalids exZero (0 : Fin 1) exZeroSubset = 1
      ∧ (CF.solveSubsetPoint exZero (0 : Fin 1) exZeroSubset).isSome = true
      ∧ CF.inlierInvalids exZero (0 : Fin 1) (exZeroStep.bestInliers (0 : Fin 1)) = 1
      ∧ (CF.refitPoint exZero (0 : Fin 1) (exZeroStep.bestInliers (0 : Fin 1))).isSome = true
      ∧ ∀ raw : Fin 3 → ℚ, ∀ c : Fin 3,
          CF.chanDenom exZero (0 : Fin 1) (exZeroStep.bestInliers (0 : Fin 1)) raw c ≠ 0
            ∧ (CF.chanCoef exZero (0 : Fin 1) (exZeroStep.bestInliers (0 : Fin 1)) raw c).isSome = true
            ∧ (CF.chanAlbedo exZero (0 : Fin 1) (exZeroStep.bestInliers (0 : Fin 1)) raw c).isSome = true :=
  claim_C3_degenerate_point_regularized exZero (0 : Fin 1) exZeroSubset
    (fun a b _ => Subsingleton.elim a b) [exZeroSubset] exZeroStep
    (by
      rw [CF.ransacLoop]
      simp only [List.foldl_cons, List.foldl_nil, Option.some_bind]
      exact exZero_ransacStep)
    (by
      rw [CF.validCount]
      have h : ∑ v : Fin exZero.C, CF.validMask exZero (0 : Fin 1) v
          = (1 : ℚ) := by
        simp [exZero_validMask, show exZero.C = 1 from rfl]
      rw [h]
      norm_num)

/-- A 1-point, 1-view input with zero light transport but a large
observation (`30000` per channel): the single view is valid yet its residual
exceeds the inlier threshold. -/
def exC1 : CFInput :=
  { N := 1, C := 1,
    lightIntensity := fun _ _ _ => 0,
    lightDirection := fun _ _ _ => 0,
    shadow := fun _ _ => false,
    observationRaw := fun _ _ _ => 30000,
    occlusionRaw := fun _ _ => false,
    sentinel := -1 }

/-- The RANSAC state reached after the single iteration on `exC1`: no view
is an inlier (count `0` replaces the `-1` sentinel). -/
def exC1Step : RState exC1 :=
  { bestCount := fun _ => 0, bestInliers := fun _ _ => 0 }

/-- Computation lemma: `exC1` has valid views everywhere. -/
theorem exC1_validMask (p : Fin exC1.N) (v : Fin exC1.C) :
    CF.validMask exC1 p v = 1 := by
  have hocc : CF.occlusion exC1 p v = false := by
    rw [CF.occlusion]
    rw [show exC1.occlusionRaw p v = false from rfl]
    rw [show exC1.observationRaw p v 1 = 30000 from rfl]
    rw [show exC1.sentinel = -1 from rfl]
    simp only [Bool.false_or, decide_eq_false_iff_not]
    norm_num
  rw [CF.validMask, CF.occlusionMask, hocc, CF.shadowingMask]
  rw [show exC1.shadow p v = false from rfl]
  norm_num

/-- Computation lemma: the gray light-transport rows of `exC1` vanish. -/
theorem exC1_grayLight (p : Fin exC1.N) (v : Fin exC1.C) (d : Fin 3) :
    CF.grayLight exC1 p v d = 0 := by
  rw [CF.grayLight]
  have h : ∀ c : Fin 3, CF.incidentLight exC1 p v c d = 0 := by
    intro c
    rw [CF.incidentLight, show exC1.lightIntensity p v c = 0 from rfl, zero_mul]
  simp [h]

/-- Computation lemma: the gray observations of `exC1` equal `30000`. -/
theorem exC1_grayObs (p : Fin exC1.N) (v : Fin exC1.C) :
    CF.grayObs exC1 p v = 30000 := by
  rw [CF.grayObs]
  have h : ∀ c : Fin 3, exC1.observationRaw p v c = 30000 := fun _ => rfl
  rw [exC1_validMask]
  simp [h]

/-- Computation lemma: the subset solve of `exC1` succeeds with the zero
solution. -/
theorem exC1_solveSubset (p : Fin exC1.N) :
    CF.solveSubsetPoint exC1 p exZeroSubset = some 0 := by
  have hmat : CF.subsetMatrix exC1 p exZeroSubset = 0 := by
    apply Matrix.ext
    intro k d
    rw [CF.subsetMatrix]
    show CF.grayLight exC1 p (exZeroSubset k) d = (0 : Matrix (Fin 1) (Fin 3) ℚ) k d
    rw [exC1_grayLight]
    simp
  have hM : CF.subsetNormalMatrix exC1 p exZeroSubset
      = (100000000 : ℚ) • (1 : Matrix (Fin 3) (Fin 3) ℚ) := by
    rw [CF.subsetNormalMatrix, hmat]
    have hsvc : CF.subsetValidCount exC1 p exZeroSubset = 1 := by
      rw [CF.subsetValidCount]
      simp [exC1_validMask]
    have hflag : CF.subsetInvalids exC1 p exZeroSubset = 1 := by
      rw [CF.subsetInvalids, hsvc]
      norm_num
    rw [hflag, CF.regScale]
    simp
  rw [CF.solveSubsetPoint, hM]
  have hdet : ((100000000 : ℚ) • (1 : Matrix (Fin 3) (Fin 3) ℚ)).det ≠ 0 := by
    rw [Matrix.det_smul, Matrix.det_one]
    norm_num
  rw [CF.matInvQ, if_neg hdet]
  rw [Option.map_some']
  congr 1
  rw [hmat, Matrix.transpose_zero, Matrix.mul_zero, Matrix.zero_mulVec]

/-- Computation lemma: under the zero solution no view of `exC1` is an
inlier (the residual is `-30000`, beyond the threshold `1e4`). -/
theorem exC1_inlierFlag (p : Fin exC1.N) (v : Fin exC1.C) :
    CF.inlierFlag exC1 p 0 v = 0 := by
  rw [CF.inlierFlag, CF.residualAt]
  have hres : (∑ d : Fin 3, CF.grayLight exC1 p v d * (0 : Fin 3 → ℚ) d)
      - CF.grayObs exC1 p v = -30000 := by
    simp [exC1_grayLight, exC1_grayObs]
  rw [hres, CF.threshold]
  rw [if_neg (by norm_num)]
  ring

/-- Computation lemma: the single RANSAC iteration of `exC1`. -/
theorem exC1_ransacLoop :
    CF.ransacLoop exC1 [exZeroSubset] (CF.initialRState exC1) = some exC1Step := by
  have hsome : ∀ q : Fin exC1.N, (CF.solveSubsetPoint exC1 q exZeroSubset).isSome := by
    intro q
    rw [exC1_solveSubset]
    rfl
  have hcnt : ∀ q : Fin exC1.N, CF.inlierCount exC1 q 0 = 0 := by
    intro q
    rw [CF.inlierCount]
    simp [exC1_inlierFlag]
  rw [CF.ransacLoop]
  simp only [List.foldl_cons, List.foldl_nil, Option.some_bind]
  rw [CF.ransacStep, dif_pos hsome]
  apply congrArg some
  have hgt : (0 : ℚ) > -1 := by norm_num
  refine RState.ext ?_ ?_
  · funext q
    simp only [exC1_solveSubset, Option.get_some, hcnt, CF.initialRState,
      exC1Step, hgt, if_true]
    norm_num
  · funext q v
    simp only [exC1_solveSubset, Option.get_some, hcnt, exC1_inlierFlag,
      CF.initialRState, exC1Step, hgt, if_true]
    norm_num

/-- Counterexample to C1 as stated: on `exC1` (where `C = 1 ≤ 6`) the single
RANSAC iteration leaves view `0` outside the inlier set even though it is
valid, so the resulting inlier set does not equal the full valid-view set. -/
theorem claim_C1_counterexample :
    CF.validMask exC1 (0 : Fin 1) (0 : Fin 1) = 1
      ∧ CF.ransacLoop exC1 [exZeroSubset] (CF.initialRState exC1) = some exC1Step
      ∧ exC1Step.bestInliers (0 : Fin 1) (0 : Fin 1) = 0 :=
  ⟨exC1_validMask (0 : Fin 1) (0 : Fin 1), exC1_ransacLoop, rfl⟩

/-- Witness for C1 at the concrete input `exZero` (`C = 1`), with the count
formula instantiated at `D = 7`. -/
theorem claim_C1_witness :
    (min 7 6 < 7 →
      CF.ransacIterationCount 7
        = (⌊10 * Real.log (1 - CF.targetedSuccessChance)
            / Real.log (1 - (1 - CF.estimatedOutlierFrac) ^ min 7 6)⌋).toNat)
    ∧ CF.ransacIterationCount exZero.C = 1
    ∧ ∃ hs : ∀ p, (CF.solveSubsetPoint exZero p exZeroSubset).isSome = true,
        ∀ p v, exZeroStep.bestInliers p v
          = CF.inlierFlag exZero p ((CF.solveSubsetPoint exZero p exZeroSubset).get (hs p)) v :=
  claim_C1_ransac_iteration_count 7 exZero exZeroSubset exZeroStep
    (by rw [show exZero.C = 1 from rfl]; norm_num)
    (by
      rw [CF.ransacLoop]
      simp only [List.foldl_cons, List.foldl_nil, Option.some_bind]
      exact exZero_ransacStep)

/-! ### C7 -/

/-- The per-channel albedo coefficient as the claim words it: the 1×1
normal-equations system regularized by adding `+1` unconditionally (the code
instead adds the degeneracy flag `inlier_invalids`). -/
noncomputable def chanCoefSpecPlusOne (inp : CFInput) (p : Fin inp.N)
    (B : Fin inp.C → ℚ) (raw : Fin 3 → ℚ) (c : Fin 3) : ℝ :=
  ((∑ v : Fin inp.C, CF.chanShading inp p B raw c v * CF.chanShading inp p B raw c v)
      + 1)⁻¹
    * ∑ v : Fin inp.C, CF.chanShading inp p B raw c v * CF.chanObs inp p B c v

/-- C7 (amended): for each color channel and every point whose 1×1 albedo
system is solvable, the fitted coefficient satisfies the normal equation
regularized by `inlier_invalids` (`+1` exactly for points with ≤2 valid
inlier views, `+0` otherwise), the reported albedo is `π` times the fitted
coefficient, and the reported residual is the masked shading times the
coefficient minus the masked observation. -/
theorem claim_C7_albedo_refit_structure (inp : CFInput) (p : Fin inp.N)
    (B : Fin inp.C → ℚ) (raw : Fin 3 → ℚ) (c : Fin 3) (coef : ℝ)
    (hcoef : CF.chanCoef inp p B raw c = some coef) :
    ((∑ v : Fin inp.C, CF.chanShading inp p B raw c v * CF.chanShading inp p B raw c v)
        + (CF.inlierInvalids inp p B : ℝ)) * coef
      = ∑ v : Fin inp.C, CF.chanShading inp p B raw c v * CF.chanObs inp p B c v
    ∧ CF.inlierInvalids inp p B
        = (if CF.inlierValidCount inp p B ≤ 2 then 1 else 0)
    ∧ CF.chanAlbedo inp p B raw c = some (Real.pi * coef)
    ∧ (∀ v, CF.chanResidual inp p B raw c v
        = some (CF.chanShading inp p B raw c v * coef - CF.chanObs inp p B c v)) := by
  by_cases hd : CF.chanDenom inp p B raw c = 0
  · rw [CF.chanCoef, if_pos hd] at hcoef
    cases hcoef
  · rw [CF.chanCoef, if_neg hd] at hcoef
    have hc := Option.some_injective _ hcoef
    refine ⟨?_, by rw [CF.inlierInvalids], ?_, ?_⟩
    · have hden : CF.chanDenom inp p B raw c
          = (∑ v : Fin inp.C,
              CF.chanShading inp p B raw c v * CF.chanShading inp p B raw c v)
            + (CF.inlierInvalids inp p B : ℝ) := by
        rw [CF.chanDenom]
      rw [← hden, ← hc]
      field_simp
    · rw [CF.chanAlbedo, CF.chanCoef, if_neg hd, Option.map_some', hc]
    · intro v
      rw [CF.chanResidual, CF.chanCoef, if_neg hd, Option.map_some', hc]

/-- A 1-point, 3-view input: unit intensities, light direction of view `v`
equal to the `v`-th coordinate axis, observation `(2,2,2)` in view `0` and
zero in views `1` and `2`.  All three views are valid and end up inliers, so
the albedo refit runs without the `+1` regularizer. -/
def exC7 : CFInput :=
  { N := 1, C := 3,
    lightIntensity := fun _ _ _ => 1,
    lightDirection := fun _ v d => if (v : ℕ) = (d : ℕ) then 1 else 0,
    shadow := fun _ _ => false,
    observationRaw := fun _ v _ => if v = (0 : Fin 3) then 2 else 0,
    occlusionRaw := fun _ _ => false,
    sentinel := -1 }

/-- The identity subset draw of the three views of `exC7`. -/
def exC7Subset : Fin 3 → Fin 3 := fun k => k

/-- The raw refit solution of `exC7`: `(2, 0, 0)`. -/
def exC7Raw : Fin 3 → ℚ := fun d => if d = 0 then 2 else 0

/-- The all-ones best-inlier row of `exC7`. -/
def exC7B : Fin exC7.C → ℚ := fun _ => 1

/-- The RANSAC state after the single iteration of `exC7`: all three views
are inliers. -/
def exC7Step : RState exC7 :=
  { bestCount := fun _ => 3, bestInliers := fun _ _ => 1 }

theorem exC7_validMask (p : Fin exC7.N) (v : Fin exC7.C) :
    CF.validMask exC7 p v = 1 := by
  have hobs : exC7.observationRaw p v 1 = if v = (0 : Fin 3) then 2 else 0 := rfl
  have hocc : CF.occlusion exC7 p v = false := by
    rw [CF.occlusion]
    rw [show exC7.occlusionRaw p v = false from rfl, hobs]
    rw [show exC7.sentinel = -1 from rfl]
    simp only [Bool.false_or, decide_eq_false_iff_not]
    by_cases h : v = (0 : Fin 3) <;> simp [h] <;> norm_num
  rw [CF.validMask, CF.occlusionMask, hocc, CF.shadowingMask]
  rw [show exC7.shadow p v = false from rfl]
  norm_num

theorem exC7_grayLight (p : Fin exC7.N) (v : Fin exC7.C) (d : Fin 3) :
    CF.grayLight exC7 p v d = if (v : ℕ) = (d : ℕ) then 1 else 0 := by
  rw [CF.grayLight, exC7_validMask, mul_one]
  have h : ∀ c : Fin 3, CF.incidentLight exC7 p v c d
      = if (v : ℕ) = (d : ℕ) then 1 else 0 := by
    intro c
    rw [CF.incidentLight, show exC7.lightIntensity p v c = 1 from rfl, one_mul]
    rfl
  rw [Finset.sum_congr rfl fun c _ => h c]
  rw [Finset.sum_const, Finset.card_univ, Fintype.card_fin]
  by_cases hv : (v : ℕ) = (d : ℕ) <;> simp [hv]

theorem exC7_grayObs (p : Fin exC7.N) (v : Fin exC7.C) :
    CF.grayObs exC7 p v = if v = (0 : Fin 3) then 2 else 0 := by
  rw [CF.grayObs, exC7_validMask, mul_one]
  have h : ∀ c : Fin 3, exC7.observationRaw p v c = if v = (0 : Fin 3) then 2 else 0 :=
    fun _ => rfl
  rw [Finset.sum_congr rfl fun c _ => h c]
  rw [Finset.sum_const, Finset.card_univ, Fintype.card_fin]
  by_cases hv : v = (0 : Fin 3) <;> simp [hv]

theorem exC7_subsetMatrix (p : Fin exC7.N) :
    CF.subsetMatrix exC7 p exC7Subset = 1 := by
  apply Matrix.ext
  intro k d
  rw [CF.subsetMatrix]
  show CF.grayLight exC7 p (exC7Subset k) d = (1 : Matrix (Fin 3) (Fin 3) ℚ) k d
  rw [show exC7Subset k = k from rfl, exC7_grayLight, Matrix.one_apply]
  by_cases h : k = d
  · rw [if_pos h, if_pos (congrArg Fin.val h)]
  · rw [if_neg h, if_neg (fun hv => h (Fin.ext hv))]

theorem exC7_subsetRhs (p : Fin exC7.N) :
    CF.subsetRhs exC7 p exC7Subset = exC7Raw := by
  funext k
  rw [CF.subsetRhs, show exC7Subset k = k from rfl, exC7_grayObs, exC7Raw]

theorem exC7_solveSubset (p : Fin exC7.N) :
    CF.solveSubsetPoint exC7 p exC7Subset = some exC7Raw := by
  have hsvc : CF.subsetValidCount exC7 p exC7Subset = 3 := by
    rw [CF.subsetValidCount]
    have h : ∀ k : Fin 3, CF.validMask exC7 p (exC7Subset k) = 1 :=
      fun k => exC7_validMask p (exC7Subset k)
    rw [Finset.sum_congr rfl fun k _ => h k]
    simp
  have hflag : CF.subsetInvalids exC7 p exC7Subset = 0 := by
    rw [CF.subsetInvalids, hsvc, if_neg]
    norm_num
  have hM : CF.subsetNormalMatrix exC7 p exC7Subset = 1 := by
    rw [CF.subsetNormalMatrix, exC7_subsetMatrix, hflag, mul_zero, zero_smul,
      add_zero, Matrix.transpose_one, Matrix.one_mul]
  rw [CF.solveSubsetPoint, hM]
  have hdet : (1 : Matrix (Fin 3) (Fin 3) ℚ).det ≠ 0 := by
    rw [Matrix.det_one]
    norm_num
  rw [CF.matInvQ, if_neg hdet, Option.map_some']
  congr 1
  rw [Matrix.det_one, Matrix.adjugate_one, inv_one, one_smul,
    exC7_subsetMatrix, Matrix.transpose_one, Matrix.one_mul, Matrix.one_mulVec,
    exC7_subsetRhs]

theorem exC7_residual (p : Fin exC7.N) (v : Fin exC7.C) :
    CF.residualAt exC7 p exC7Raw v = 0 := by
  rw [CF.residualAt, exC7_grayObs]
  have h : ∀ d : Fin 3, CF.grayLight exC7 p v d * exC7Raw d
      = if (v : ℕ) = (d : ℕ) then exC7Raw d else 0 := by
    intro d
    rw [exC7_grayLight]
    by_cases hv : (v : ℕ) = (d : ℕ) <;> simp [hv]
  rw [Finset.sum_congr rfl fun d _ => h d]
  obtain ⟨vv, hvv⟩ := v
  have hvv3 : vv < 3 := hvv
  interval_cases vv <;>
    · rw [Fin.sum_univ_three]
      norm_num [exC7Raw, Fin.ext_iff]

theorem exC7_inlierFlag (p : Fin exC7.N) (v : Fin exC7.C) :
    CF.inlierFlag exC7 p exC7Raw v = 1 := by
  rw [CF.inlierFlag, exC7_residual, exC7_validMask, CF.threshold]
  norm_num

theorem exC7_inlierCount (p : Fin exC7.N) :
    CF.inlierCount exC7 p exC7Raw = 3 := by
  rw [CF.inlierCount]
  rw [Finset.sum_congr rfl fun v _ => exC7_inlierFlag p v]
  simp [show exC7.C = 3 from rfl]

theorem exC7_ransacLoop :
    CF.ransacLoop exC7 [exC7Subset] (CF.initialRState exC7) = some exC7Step := by
  have hsome : ∀ q : Fin exC7.N, (CF.solveSubsetPoint exC7 q exC7Subset).isSome := by
    intro q
    rw [exC7_solveSubset]
    rfl
  rw [CF.ransacLoop]
  simp only [List.foldl_cons, List.foldl_nil, Option.some_bind]
  rw [CF.ransacStep, dif_pos hsome]
  apply congrArg some
  have hgt : (3 : ℚ) > -1 := by norm_num
  refine RState.ext ?_ ?_
  · funext q
    simp only [exC7_solveSubset, Option.get_some, exC7_inlierCount,
      CF.initialRState, exC7Step, hgt, if_true]
    norm_num
  · funext q v
    simp only [exC7_solveSubset, Option.get_some, exC7_inlierCount,
      exC7_inlierFlag, CF.initialRState, exC7Step, hgt, if_true]
    norm_num

theorem exC7_inlierValidCount (p : Fin exC7.N) :
    CF.inlierValidCount exC7 p exC7B = 3 := by
  rw [CF.inlierValidCount]
  have h : ∀ v : Fin exC7.C, CF.validMask exC7 p v * exC7B v = 1 := by
    intro v
    rw [exC7_validMask, exC7B]
    norm_num
  rw [Finset.sum_congr rfl fun v _ => h v]
  simp [show exC7.C = 3 from rfl]

theorem exC7_inlierInvalids (p : Fin exC7.N) :
    CF.inlierInvalids exC7 p exC7B = 0 := by
  rw [CF.inlierInvalids, exC7_inlierValidCount, if_neg]
  norm_num

theorem exC7_refit (p : Fin exC7.N) :
    CF.refitPoint exC7 p exC7B = some exC7Raw := by
  have hmat : CF.inlierMatrix exC7 p exC7B = (1 : Matrix (Fin 3) (Fin 3) ℚ) := by
    apply Matrix.ext
    intro v d
    rw [CF.inlierMatrix]
    show CF.grayLight exC7 p v d * exC7B v = (1 : Matrix (Fin 3) (Fin 3) ℚ) v d
    rw [exC7_grayLight, exC7B, mul_one, Matrix.one_apply]
    by_cases h : (v : ℕ) = (d : ℕ)
    · rw [if_pos h, if_pos (Fin.ext h)]
    · rw [if_neg h, if_neg (fun hv => h (congrArg Fin.val hv))]
  have hM : CF.inlierNormalMatrix exC7 p exC7B = 1 := by
    rw [CF.inlierNormalMatrix, hmat, exC7_inlierInvalids, mul_zero, zero_smul,
      add_zero, Matrix.transpose_one, Matrix.one_mul]
  rw [CF.refitPoint, hM]
  have hdet : (1 : Matrix (Fin 3) (Fin 3) ℚ).det ≠ 0 := by
    rw [Matrix.det_one]
    norm_num
  rw [CF.matInvQ, if_neg hdet, Option.map_some']
  congr 1
  rw [Matrix.det_one, Matrix.adjugate_one, inv_one, one_smul, hmat,
    Matrix.transpose_one, Matrix.one_mul, Matrix.one_mulVec]
  funext v
  rw [CF.inlierRhs, exC7_grayObs, exC7B, mul_one, exC7Raw]

theorem fin3_one_ne_zero : (1 : Fin 3) ≠ 0 := by decide

theorem fin3_two_ne_zero : (2 : Fin 3) ≠ 0 := by decide

theorem exC7_normal :
    CF.normalOfRaw exC7Raw = fun d : Fin 3 => if d = 0 then (1 : ℝ) else 0 := by
  rw [CF.normalOfRaw]
  have hv : (fun d : Fin 3 => ((exC7Raw d : ℚ) : ℝ))
      = fun d : Fin 3 => if d = 0 then (2 : ℝ) else 0 := by
    funext d
    rw [exC7Raw]
    by_cases h : d = 0 <;> simp [h]
  rw [hv]
  have h4 : inner_product (fun d : Fin 3 => if d = 0 then (2 : ℝ) else 0)
      (fun d : Fin 3 => if d = 0 then (2 : ℝ) else 0) = 4 := by
    rw [inner_product, Fin.sum_univ_three]
    norm_num [fin3_one_ne_zero, fin3_two_ne_zero]
  have hnorm : vnorm (fun d : Fin 3 => if d = 0 then (2 : ℝ) else 0) = 2 := by
    rw [vnorm, h4, show (4 : ℝ) = 2 ^ 2 by norm_num]
    exact Real.sqrt_sq (by norm_num)
  rw [normalize, hnorm, if_neg (by norm_num : (2 : ℝ) ≠ 0)]
  funext d
  by_cases h : d = 0 <;> simp [h] <;> norm_num

theorem exC7_inlierMask (p : Fin exC7.N) (v : Fin exC7.C) :
    CF.inlierMask exC7 p exC7B v = 1 := by
  rw [CF.inlierMask, exC7_validMask]
  simp [exC7B]

theorem exC7_chanShading (p : Fin exC7.N) (c : Fin 3) (v : Fin exC7.C) :
    CF.chanShading exC7 p exC7B exC7Raw c v
      = if v = (0 : Fin 3) then 1 else 0 := by
  rw [CF.chanShading, exC7_inlierMask, Rat.cast_one, mul_one, exC7_normal]
  have hinc : ∀ d : Fin 3, ((CF.incidentLight exC7 p v c d : ℚ) : ℝ)
      = if (v : ℕ) = (d : ℕ) then 1 else 0 := by
    intro d
    rw [CF.incidentLight, show exC7.lightIntensity p v c = 1 from rfl, one_mul]
    rw [show exC7.lightDirection p v d
      = if (v : ℕ) = (d : ℕ) then 1 else 0 from rfl]
    by_cases h : (v : ℕ) = (d : ℕ) <;> simp [h]
  rw [Finset.sum_congr rfl fun d _ => by rw [hinc d]]
  rw [Fin.sum_univ_three]
  obtain ⟨vv, hvv⟩ := v
  have hvv3 : vv < 3 := hvv
  interval_cases vv <;> norm_num [Fin.ext_iff]

theorem exC7_chanObs (p : Fin exC7.N) (c : Fin 3) (v : Fin exC7.C) :
    CF.chanObs exC7 p exC7B c v = if v = (0 : Fin 3) then 2 else 0 := by
  rw [CF.chanObs, exC7_inlierMask, Rat.cast_one, mul_one]
  rw [show exC7.observationRaw p v c = if v = (0 : Fin 3) then 2 else 0 from rfl]
  by_cases h : v = (0 : Fin 3)
  · rw [if_pos h, if_pos h]
    norm_num
  · rw [if_neg h, if_neg h]
    norm_num

theorem exC7_shadingSq_sum (p : Fin exC7.N) (c : Fin 3) :
    (∑ v : Fin exC7.C, CF.chanShading exC7 p exC7B exC7Raw c v
      * CF.chanShading exC7 p exC7B exC7Raw c v) = 1 := by
  have h : ∀ v : Fin exC7.C, CF.chanShading exC7 p exC7B exC7Raw c v
      * CF.chanShading exC7 p exC7B exC7Raw c v
      = if v = (0 : Fin 3) then 1 else 0 := by
    intro v
    rw [exC7_chanShading]
    by_cases hv : v = (0 : Fin 3) <;> simp [hv]
  rw [Finset.sum_congr rfl fun v _ => h v]
  show ∑ v : Fin 3, (if v = (0 : Fin 3) then (1 : ℝ) else 0) = 1
  rw [Fin.sum_univ_three]
  norm_num [fin3_one_ne_zero, fin3_two_ne_zero]

theorem exC7_shadingObs_sum (p : Fin exC7.N) (c : Fin 3) :
    (∑ v : Fin exC7.C, CF.chanShading exC7 p exC7B exC7Raw c v
      * CF.chanObs exC7 p exC7B c v) = 2 := by
  have h : ∀ v : Fin exC7.C, CF.chanShading exC7 p exC7B exC7Raw c v
      * CF.chanObs exC7 p exC7B c v
      = if v = (0 : Fin 3) then 2 else 0 := by
    intro v
    rw [exC7_chanShading, exC7_chanObs]
    by_cases hv : v = (0 : Fin 3) <;> simp [hv]
  rw [Finset.sum_congr rfl fun v _ => h v]
  show ∑ v : Fin 3, (if v = (0 : Fin 3) then (2 : ℝ) else 0) = 2
  rw [Fin.sum_univ_three]
  norm_num [fin3_one_ne_zero, fin3_two_ne_zero]

theorem exC7_chanDenom (p : Fin exC7.N) (c : Fin 3) :
    CF.chanDenom exC7 p exC7B exC7Raw c = 1 := by
  rw [CF.chanDenom, exC7_shadingSq_sum, exC7_inlierInvalids]
  norm_num

theorem exC7_chanCoef (p : Fin exC7.N) (c : Fin 3) :
    CF.chanCoef exC7 p exC7B exC7Raw c = some 2 := by
  rw [CF.chanCoef, exC7_chanDenom, if_neg (by norm_num : (1 : ℝ) ≠ 0)]
  rw [exC7_shadingObs_sum]
  norm_num

theorem exC7_chanCoefSpecPlusOne (p : Fin exC7.N) (c : Fin 3) :
    chanCoefSpecPlusOne exC7 p exC7B exC7Raw c = 1 := by
  rw [chanCoefSpecPlusOne, exC7_shadingSq_sum, exC7_shadingObs_sum]
  norm_num

/-- Counterexample to C7 as stated: on `exC7` the winning inlier set has 3
valid views, `inlier_invalids = 0`, so the 1×1 system is NOT regularized by
`+1`: the reported albedo is `π·2` while the `+1`-regularized fit of the
claim would report `π·1`. -/
theorem claim_C7_counterexample :
    CF.ransacLoop exC7 [exC7Subset] (CF.initialRState exC7) = some exC7Step
      ∧ exC7Step.bestInliers (0 : Fin 1) = exC7B
      ∧ CF.refitPoint exC7 (0 : Fin 1) exC7B = some exC7Raw
      ∧ CF.inlierInvalids exC7 (0 : Fin 1) exC7B = 0
      ∧ CF.chanAlbedo exC7 (0 : Fin 1) exC7B exC7Raw 0 = some (Real.pi * 2)
      ∧ chanCoefSpecPlusOne exC7 (0 : Fin 1) exC7B exC7Raw 0 = 1
      ∧ Real.pi * 2 ≠ Real.pi * 1 := by
  refine ⟨exC7_ransacLoop, rfl, exC7_refit (0 : Fin 1),
    exC7_inlierInvalids (0 : Fin 1), ?_, exC7_chanCoefSpecPlusOne (0 : Fin 1) 0, ?_⟩
  · rw [CF.chanAlbedo, exC7_chanCoef (0 : Fin 1) 0, Option.map_some']
  · intro h
    have := mul_left_cancel₀ Real.pi_ne_zero h
    norm_num at this

/-- Witness for C7 (amended) at the concrete input `exC7`, channel `0`,
fitted coefficient `2`. -/
theorem claim_C7_witness :
    ((∑ v : Fin exC7.C, CF.chanShading exC7 (0 : Fin 1) exC7B exC7Raw 0 v
          * CF.chanShading exC7 (0 : Fin 1) exC7B exC7Raw 0 v)
        + (CF.inlierInvalids exC7 (0 : Fin 1) exC7B : ℝ)) * 2
      = ∑ v : Fin exC7.C, CF.chanShading exC7 (0 : Fin 1) exC7B exC7Raw 0 v
          * CF.chanObs exC7 (0 : Fin 1) exC7B 0 v
    ∧ CF.inlierInvalids exC7 (0 : Fin 1) exC7B
        = (if CF.inlierValidCount exC7 (0 : Fin 1) exC7B ≤ 2 then 1 else 0)
    ∧ CF.chanAlbedo exC7 (0 : Fin 1) exC7B exC7Raw 0 = some (Real.pi * 2)
    ∧ (∀ v, CF.chanResidual exC7 (0 : Fin 1) exC7B exC7Raw 0 v
        = some (CF.chanShading exC7 (0 : Fin 1) exC7B exC7Raw 0 v * 2
            - CF.chanObs exC7 (0 : Fin 1) exC7B 0 v)) :=
  claim_C7_albedo_refit_structure exC7 (0 : Fin 1) exC7B exC7Raw 0 2
    (exC7_chanCoef (0 : Fin 1) 0)

/-! ### C8 -/

/-- The sign factor satisfies `sgn x * x = |x|`. -/
theorem Loc.sgn_mul (x : ℝ) : Loc.sgn x * x = |x| := by
  rw [Loc.sgn]
  by_cases h1 : 0 < x
  · rw [if_pos h1, one_mul, abs_of_pos h1]
  · rw [if_neg h1]
    by_cases h2 : x < 0
    · rw [if_pos h2, abs_of_neg h2]
      ring
    · rw [if_neg h2]
      have hx : x = 0 := le_antisymm (not_lt.mp h1) (not_lt.mp h2)
      rw [hx, abs_zero, zero_mul]

/-- C8 (amended): at every core pixel the sign of the finite-difference
normal is chosen so that its dot product with the point-to-camera vector
(camera location minus point position) is nonnegative — equivalently its dot
product with the camera-to-point vector (point minus camera) is nonpositive,
and strictly negative whenever the unsigned normal is not perpendicular to
the viewing ray. -/
theorem claim_C8_normal_faces_camera (st : DState) (i j : ℤ)
    (h : Loc.inGridCore st i j) :
    inner_product (Loc.preNormal st i j) (Loc.locImg st i j - Loc.camloc st) ≤ 0
      ∧ (inner_product (Loc.crossNormal st i j)
            (Loc.camloc st - Loc.locImg st i j) ≠ 0 →
          inner_product (Loc.preNormal st i j)
            (Loc.locImg st i j - Loc.camloc st) < 0) := by
  have hkey : inner_product (Loc.preNormal st i j)
      (Loc.locImg st i j - Loc.camloc st)
      = -|inner_product (Loc.crossNormal st i j)
          (Loc.camloc st - Loc.locImg st i j)| := by
    rw [Loc.preNormal, if_pos h, inner_sub_swap, inner_smul_left, Loc.sgn_mul]
  constructor
  · rw [hkey]
    simp [abs_nonneg]
  · intro hne
    rw [hkey]
    simp only [neg_neg, Left.neg_neg_iff]
    exact abs_pos.mpr hne

/-! ### C5 -/

/-- The signed finite-difference normal of any pixel is a unit vector or
zero. -/
theorem Loc.preNormal_unit_or_zero (st : DState) (i j : ℤ) :
    vnorm (Loc.preNormal st i j) = 1 ∨ Loc.preNormal st i j = 0 := by
  rw [Loc.preNormal]
  by_cases h : Loc.inGridCore st i j
  · rw [if_pos h]
    have hco : vnorm (Loc.crossNormal st i j) = 1 ∨ Loc.crossNormal st i j = 0 :=
      normalize_unit_or_zero
        (cross_product (Loc.downVec st i j) (Loc.rightVec st i j))
    rcases hco with hu | hz
    · set x := inner_product (Loc.crossNormal st i j)
        (Loc.camloc st - Loc.locImg st i j) with hx
      rw [Loc.sgn]
      by_cases h1 : 0 < x
      · rw [if_pos h1, one_smul]
        left
        exact hu
      · rw [if_neg h1]
        by_cases h2 : x < 0
        · rw [if_pos h2]
          left
          rw [vnorm_smul, hu]
          norm_num
        · rw [if_neg h2, zero_smul]
          right
          rfl
    · rw [hz, smul_zero]
      right
      rfl
  · rw [if_neg h]
    right
    rfl

/-- C5 (amended): for a validly initialized depth-map parametrization (mask
inside the grid, not touching the last row/column), `implied_normal_image()`
succeeds, its value at every masked pixel is a unit vector or — in
degenerate configurations — the zero vector, and the padded last row and
column are exactly zero.  (Pixels outside the mask need not be zero.) -/
theorem claim_C5_normal_image_unit_or_zero (st : DState)
    (hmask : ∀ i j : ℤ, st.mask i j = true →
      0 ≤ i ∧ i < st.H ∧ 0 ≤ j ∧ j < st.W)
    (hborder : Loc.borderTouchB st = false) :
    Loc.impliedNormalImage st = Except.ok (Loc.finalNormal st)
      ∧ (∀ i j : ℤ, st.mask i j = true →
          vnorm (Loc.finalNormal st i j) = 1 ∨ Loc.finalNormal st i j = 0)
      ∧ (∀ i j : ℤ, i = (st.H : ℤ) - 1 ∨ j = (st.W : ℤ) - 1 →
          Loc.finalNormal st i j = 0) := by
  have hborder' := hborder
  rw [Loc.borderTouchB, Bool.or_eq_false_iff] at hborder'
  obtain ⟨hrow, hcol⟩ := hborder'
  rw [List.any_eq_false] at hrow hcol
  refine ⟨?_, ?_, ?_⟩
  · rw [Loc.impliedNormalImage, hborder]
    rfl
  · intro i j hm
    obtain ⟨hi0, hiH, hj0, hjW⟩ := hmask i j hm
    have hgrid : Loc.inGridCore st i j := by
      refine ⟨hi0, ?_, hj0, ?_⟩
      · rcases lt_or_ge i ((st.H : ℤ) - 1) with hlt | hge
        · exact hlt
        · exfalso
          have hieq : i = (st.H : ℤ) - 1 := by omega
          have hjn : j = ((j.toNat : ℕ) : ℤ) := by omega
          have hjW' : j.toNat < st.W := by omega
          have := hrow j.toNat (List.mem_range.mpr hjW')
          rw [← hieq] at this
          rw [← hjn] at this
          exact this hm
      · rcases lt_or_ge j ((st.W : ℤ) - 1) with hlt | hge
        · exact hlt
        · exfalso
          have hjeq : j = (st.W : ℤ) - 1 := by omega
          have hin : i = ((i.toNat : ℕ) : ℤ) := by omega
          have hiH' : i.toNat < st.H := by omega
          have := hcol i.toNat (List.mem_range.mpr hiH')
          rw [← hjeq] at this
          rw [← hin] at this
          exact this hm
    rw [Loc.finalNormal, if_pos hgrid, Loc.stage2]
    by_cases hc2 : Loc.inGridCore st i j ∧ st.mask i j = true
        ∧ vnorm (Loc.stage1 st i j) = 0
    · rw [if_pos hc2, Loc.meanNormal]
      exact normalize_unit_or_zero _
    · rw [if_neg hc2, Loc.stage1]
      by_cases hc1 : Loc.inGridCore st i j ∧ st.mask i j = true
          ∧ (vnorm (Loc.preNormal st i j) = 0
            ∨ ¬ st.mask (i + 1) j = true ∨ ¬ st.mask i (j + 1) = true)
      · rw [if_pos hc1, Loc.localMean]
        exact normalize_unit_or_zero _
      · rw [if_neg hc1]
        exact Loc.preNormal_unit_or_zero st i j
  · intro i j hij
    rw [Loc.finalNormal, if_neg]
    intro hgrid
    obtain ⟨h1, h2, h3, h4⟩ := hgrid
    rcases hij with h | h <;> omega

/-- A 3×3 depth-map state with camera at `(0,0,-1)` (identity intrinsics and
rotation) and exactly the pixels `(1,0)` and `(0,1)` masked: the unmasked
pixel `(0,0)` still receives a nonzero finite-difference normal. -/
noncomputable def exA : DState :=
  { H := 3, W := 3,
    depth := fun _ _ => 1,
    mask := fun i j => decide (i = 1 ∧ j = 0) || decide (i = 0 ∧ j = 1),
    invK := 1,
    invRt := Matrix.of fun r c =>
      if (c : ℕ) = 3 then (if (r : ℕ) = 2 then -1 else 0)
      else if (r : ℕ) = (c : ℕ) then 1 else 0 }

theorem exA_camloc : Loc.camloc exA = ![0, 0, -1] := by
  funext r
  fin_cases r <;>
    simp [Loc.camloc, exA, show ((3 : Fin 4) : ℕ) = 3 from rfl]

theorem exA_rotPart : Loc.rotPart exA = 1 := by
  apply Matrix.ext
  intro a b
  fin_cases a <;> fin_cases b <;>
    simp [Loc.rotPart, exA, Matrix.one_apply, Fin.castSucc]

theorem exA_locWorld (i j : ℤ) :
    Loc.locWorld exA i j = fun r => Loc.pixHom i j r + ![0, 0, -1] r := by
  rw [Loc.locWorld, exA_rotPart, Matrix.one_mulVec]
  rw [show exA.invK = 1 from rfl, Matrix.one_mulVec]
  rw [show exA.depth i j = 1 from rfl, one_smul, exA_camloc]
  funext r
  rfl

theorem exA_locImg00 : Loc.locImg exA 0 0 = 0 := by
  rw [Loc.locImg_eq, if_neg (by decide)]

theorem exA_locImg10 : Loc.locImg exA 1 0 = ![0, 1, 0] := by
  rw [Loc.locImg_eq, if_pos (by decide), exA_locWorld]
  funext r
  fin_cases r <;> simp [Loc.pixHom] <;> norm_num

theorem exA_locImg01 : Loc.locImg exA 0 1 = ![1, 0, 0] := by
  rw [Loc.locImg_eq, if_pos (by decide), exA_locWorld]
  funext r
  fin_cases r <;> simp [Loc.pixHom] <;> norm_num

theorem exA_downVec : Loc.downVec exA 0 0 = ![0, -1, 0] := by
  rw [Loc.downVec, show ((0 : ℤ) + 1) = 1 by norm_num, exA_locImg00, exA_locImg10]
  have hsub : (0 : Vec3) - ![0, 1, 0] = ![0, -1, 0] := by
    funext r
    fin_cases r <;> simp
  rw [hsub]
  refine normalize_unit_vec _ ?_
  rw [inner_product, Fin.sum_univ_three]
  norm_num

theorem exA_rightVec : Loc.rightVec exA 0 0 = ![-1, 0, 0] := by
  rw [Loc.rightVec, show ((0 : ℤ) + 1) = 1 by norm_num, exA_locImg00, exA_locImg01]
  have hsub : (0 : Vec3) - ![1, 0, 0] = ![-1, 0, 0] := by
    funext r
    fin_cases r <;> simp
  rw [hsub]
  refine normalize_unit_vec _ ?_
  rw [inner_product, Fin.sum_univ_three]
  norm_num

theorem exA_crossNormal : Loc.crossNormal exA 0 0 = ![0, 0, -1] := by
  rw [Loc.crossNormal, exA_downVec, exA_rightVec]
  have hcross : cross_product ![0, -1, 0] ![-1, 0, 0] = ![0, 0, -1] := by
    funext r
    fin_cases r <;> simp [cross_product] <;> norm_num
  rw [hcross]
  refine normalize_unit_vec _ ?_
  rw [inner_product, Fin.sum_univ_three]
  norm_num

theorem exA_preNormal : Loc.preNormal exA 0 0 = ![0, 0, -1] := by
  rw [Loc.preNormal, if_pos (by decide), exA_crossNormal, exA_locImg00, exA_camloc]
  have hin : inner_product ![0, 0, -1] ((![0, 0, -1] : Vec3) - 0) = 1 := by
    rw [sub_zero, inner_product, Fin.sum_univ_three]
    norm_num
  rw [hin, Loc.sgn, if_pos one_pos, one_smul]

theorem exA_finalNormal : Loc.finalNormal exA 0 0 = ![0, 0, -1] := by
  rw [Loc.finalNormal, if_pos (by decide), Loc.stage2]
  rw [if_neg fun hc => (by decide : ¬ exA.mask 0 0 = true) hc.2.1]
  rw [Loc.stage1]
  rw [if_neg fun hc => (by decide : ¬ exA.mask 0 0 = true) hc.2.1]
  exact exA_preNormal

/-- A 3×3 depth-map state with camera at the origin and a single masked
pixel `(0,0)`: its finite-difference normal and both repair passes all
degenerate to the zero vector. -/
noncomputable def exB : DState :=
  { H := 3, W := 3,
    depth := fun _ _ => 1,
    mask := fun i j => decide (i = 0 ∧ j = 0),
    invK := 1,
    invRt := Matrix.of fun r c =>
      if (c : ℕ) = 3 then 0
      else if (r : ℕ) = (c : ℕ) then 1 else 0 }

theorem exB_camloc : Loc.camloc exB = 0 := by
  funext r
  fin_cases r <;>
    simp [Loc.camloc, exB, show ((3 : Fin 4) : ℕ) = 3 from rfl]

theorem exB_rotPart : Loc.rotPart exB = 1 := by
  apply Matrix.ext
  intro a b
  fin_cases a <;> fin_cases b <;>
    simp [Loc.rotPart, exB, Matrix.one_apply, Fin.castSucc]

theorem exB_locImg00 : Loc.locImg exB 0 0 = ![0, 0, 1] := by
  rw [Loc.locImg_eq, if_pos (by decide)]
  rw [Loc.locWorld, exB_rotPart, Matrix.one_mulVec]
  rw [show exB.invK = 1 from rfl, Matrix.one_mulVec]
  rw [show exB.depth 0 0 = 1 from rfl, one_smul, exB_camloc]
  funext r
  fin_cases r <;> simp [Loc.pixHom]

theorem exB_locImg_unmasked (a b : ℤ) (h : (a, b) ∉ Loc.maskedCells exB) :
    Loc.locImg exB a b = 0 := by
  rw [Loc.locImg_eq, if_neg h]

theorem exB_preNormal (i j : ℤ) : Loc.preNormal exB i j = 0 := by
  rw [Loc.preNormal]
  by_cases h : Loc.inGridCore exB i j
  · rw [if_pos h]
    obtain ⟨h1, h2, h3, h4⟩ := h
    have hH : ((exB.H : ℤ) - 1) = 2 := by norm_num [show exB.H = 3 from rfl]
    have hW : ((exB.W : ℤ) - 1) = 2 := by norm_num [show exB.W = 3 from rfl]
    rw [hH] at h2
    rw [hW] at h4
    have hcn : Loc.crossNormal exB i j = 0 := by
      interval_cases i <;> interval_cases j
      · rw [Loc.crossNormal, Loc.downVec, Loc.rightVec]
        rw [show ((0 : ℤ) + 1) = 1 by norm_num, exB_locImg00]
        rw [exB_locImg_unmasked 1 0 (by decide), exB_locImg_unmasked 0 1 (by decide)]
        rw [sub_zero, cross_self, normalize_zero]
      · rw [Loc.crossNormal, Loc.downVec]
        rw [show ((0 : ℤ) + 1) = 1 by norm_num]
        rw [exB_locImg_unmasked 0 1 (by decide), exB_locImg_unmasked 1 1 (by decide)]
        rw [sub_zero, normalize_zero, cross_zero_left, normalize_zero]
      · rw [Loc.crossNormal, Loc.rightVec]
        rw [show ((0 : ℤ) + 1) = 1 by norm_num]
        rw [exB_locImg_unmasked 1 0 (by decide), exB_locImg_unmasked 1 1 (by decide)]
        rw [sub_zero, normalize_zero, cross_zero_right, normalize_zero]
      · rw [Loc.crossNormal, Loc.downVec]
        rw [show ((1 : ℤ) + 1) = 2 by norm_num]
        rw [exB_locImg_unmasked 1 1 (by decide), exB_locImg_unmasked 2 1 (by decide)]
        rw [sub_zero, normalize_zero, cross_zero_left, normalize_zero]
    rw [hcn, smul_zero]
  · rw [if_neg h]

theorem exB_localMean (i j : ℤ) : Loc.localMean exB i j = 0 := by
  rw [Loc.localMean, Finset.sum_eq_zero fun o _ => exB_preNormal _ _, normalize_zero]

theorem exB_finalNormal : Loc.finalNormal exB 0 0 = 0 := by
  have hmean : Loc.meanNormal exB = 0 := by
    rw [Loc.meanNormal]
    rw [Finset.sum_eq_zero fun i _ => Finset.sum_eq_zero fun j _ => exB_localMean _ _]
    exact normalize_zero
  have hstage1 : Loc.stage1 exB 0 0 = 0 := by
    have hcond : Loc.inGridCore exB 0 0 ∧ exB.mask 0 0 = true
        ∧ (vnorm (Loc.preNormal exB 0 0) = 0
          ∨ ¬ exB.mask (0 + 1) 0 = true ∨ ¬ exB.mask 0 (0 + 1) = true) :=
      ⟨by decide, by decide, Or.inr (Or.inl (by decide))⟩
    rw [Loc.stage1, if_pos hcond, exB_localMean]
  have hcond2 : Loc.inGridCore exB 0 0 ∧ exB.mask 0 0 = true
      ∧ vnorm (Loc.stage1 exB 0 0) = 0 :=
    ⟨by decide, by decide, by rw [hstage1]; exact vnorm_zero⟩
  rw [Loc.finalNormal, if_pos (by decide), Loc.stage2, if_pos hcond2, hmean]

/-- Counterexample to C5 as stated: on `exA` the unmasked interior pixel
`(0,0)` holds a nonzero normal (not the exact zero vector), and on the
degenerate instance `exB` the masked interior pixel `(0,0)` holds the zero
vector (not a unit vector). -/
theorem claim_C5_counterexample :
    exA.mask 0 0 = false
      ∧ Loc.borderTouchB exA = false
      ∧ Loc.finalNormal exA 0 0 ≠ 0
      ∧ exB.mask 0 0 = true
      ∧ Loc.borderTouchB exB = false
      ∧ Loc.finalNormal exB 0 0 = 0 := by
  refine ⟨by decide, by decide, ?_, by decide, by decide, exB_finalNormal⟩
  rw [exA_finalNormal]
  intro h
  have h2 := congrFun h 2
  norm_num at h2

/-- Witness for C5 (amended) at the concrete state `exA`. -/
theorem claim_C5_witness :
    Loc.impliedNormalImage exA = Except.ok (Loc.finalNormal exA)
      ∧ (∀ i j : ℤ, exA.mask i j = true →
          vnorm (Loc.finalNormal exA i j) = 1 ∨ Loc.finalNormal exA i j = 0)
      ∧ (∀ i j : ℤ, i = (exA.H : ℤ) - 1 ∨ j = (exA.W : ℤ) - 1 →
          Loc.finalNormal exA i j = 0) :=
  claim_C5_normal_image_unit_or_zero exA
    (by
      intro i j h
      rw [show exA.mask i j
        = (decide (i = 1 ∧ j = 0) || decide (i = 0 ∧ j = 1)) from rfl] at h
      rcases Bool.or_eq_true_iff.mp h with h1 | h1 <;>
        · obtain ⟨rfl, rfl⟩ := of_decide_eq_true h1
          norm_num [show exA.H = 3 from rfl, show exA.W = 3 from rfl])
    (by decide)

/-- Witness for C8 (amended) at the concrete state `exA`, pixel `(0,0)`. -/
theorem claim_C8_witness :
    inner_product (Loc.preNormal exA 0 0) (Loc.locImg exA 0 0 - Loc.camloc exA) ≤ 0
      ∧ (inner_product (Loc.crossNormal exA 0 0)
            (Loc.camloc exA - Loc.locImg exA 0 0) ≠ 0 →
          inner_product (Loc.preNormal exA 0 0)
            (Loc.locImg exA 0 0 - Loc.camloc exA) < 0) :=
  claim_C8_normal_faces_camera exA 0 0 (by decide)

/-- Counterexample to C8 as stated: at the core pixel `(0,0)` of `exA` the
reoriented normal has dot product `-1` with the camera-to-point vector
(point minus camera) — negative, not positive. -/
theorem claim_C8_counterexample :
    Loc.inGridCore exA 0 0
      ∧ inner_product (Loc.preNormal exA 0 0)
          (Loc.locImg exA 0 0 - Loc.camloc exA) = -1
      ∧ ¬ 0 < inner_product (Loc.preNormal exA 0 0)
          (Loc.locImg exA 0 0 - Loc.camloc exA) := by
  have hval : inner_product (Loc.preNormal exA 0 0)
      (Loc.locImg exA 0 0 - Loc.camloc exA) = -1 := by
    rw [exA_preNormal, exA_locImg00, exA_camloc, zero_sub]
    rw [inner_product, Fin.sum_univ_three]
    norm_num
  refine ⟨by decide, hval, ?_⟩
  rw [hval]
  norm_num

end HandheldSVBRDF
